import Mathlib

/-!
Verification development for the Smart Content Moderator moderation pipeline
(repository `Sufiyaan21/Smart-Content-Moderater`).

The Python source is shallowly embedded in Lean:
* `app/utils/hashing.py` (`hash_text`, `hash_url`) — text normalization and
  SHA-256 fingerprinting, with SHA-256 implemented concretely over byte lists;
* `app/services/llm_service.py` (`_parse_llm_response`) — the tolerant verdict
  parser, with a concrete JSON decoder standing in for Python's `json.loads`;
* `app/routes/moderation.py` (`moderate_text`, `moderate_image`,
  `send_notifications_background`) — the orchestration endpoints, embedded as
  explicit state transformers over a `World` record modelling the database and
  the external-call counters;
* `app/services/notification_service.py` (`send_notifications`) — per-channel
  notification fan-out.

Modelling conventions: Python floats are modelled as rationals (`ℚ`); the
Unicode-sensitive operations `str.lower`, `str.strip` and `str.split` are
modelled on the ASCII range (every claim is about ASCII data); database rows
are kept in insertion order and a SQLAlchemy `.first()` on a query without
`order_by` is modelled as the head of the insertion-ordered matching rows
(there is no ORDER BY in the generated SQL; for these append-only tables the
backend returns physical insertion order).
-/

namespace SCM

/-- Left curly brace character (written numerically throughout). -/
def lbraceC : Char := Char.ofNat 123

/-- Right curly brace character. -/
def rbraceC : Char := Char.ofNat 125

/-- Double-quote character. -/
def dquoteC : Char := Char.ofNat 34

/-- Backslash character. -/
def bslashC : Char := Char.ofNat 92

/-- Whitespace as recognised by Python's `str.strip()` / `str.split()`
(ASCII range): space, tab, newline, carriage return, vertical tab, form feed. -/
def isPySpace (c : Char) : Bool :=
  c = ' ' || c = Char.ofNat 9 || c = Char.ofNat 10 || c = Char.ofNat 13 ||
  c = Char.ofNat 11 || c = Char.ofNat 12

/-- Python `str.lower()` on one character (ASCII range). -/
def lowerChar (c : Char) : Char :=
  if 65 ≤ c.toNat ∧ c.toNat ≤ 90 then Char.ofNat (c.toNat + 32) else c

/-- Python `str.strip()`: drop leading and trailing whitespace. -/
def stripWs (cs : List Char) : List Char :=
  ((cs.dropWhile isPySpace).reverse.dropWhile isPySpace).reverse

/-- Helper for `splitWs`; `acc` holds the current word reversed. -/
def splitWsAux : List Char → List Char → List (List Char)
  | [], acc => if acc.isEmpty then [] else [acc.reverse]
  | c :: cs, acc =>
    if isPySpace c then
      if acc.isEmpty then splitWsAux cs [] else acc.reverse :: splitWsAux cs []
    else splitWsAux cs (c :: acc)

/-- Python `str.split()` with no argument: split on whitespace runs,
discarding empty pieces. -/
def splitWs (cs : List Char) : List (List Char) := splitWsAux cs []

/-- The text normalization inside `hash_text`
(`" ".join(text.strip().lower().split())` in `app/utils/hashing.py`). -/
def normText (cs : List Char) : List Char :=
  List.intercalate [' '] (splitWs ((stripWs cs).map lowerChar))

/-- UTF-8 encoding of one character (code point to bytes). -/
def utf8Char (c : Char) : List ℕ :=
  let n := c.toNat
  if n < 128 then [n]
  else if n < 2048 then [192 + n / 64, 128 + n % 64]
  else if n < 65536 then [224 + n / 4096, 128 + (n / 64) % 64, 128 + n % 64]
  else [240 + n / 262144, 128 + (n / 4096) % 64, 128 + (n / 64) % 64, 128 + n % 64]

/-- UTF-8 encoding of a character list (Python `str.encode("utf-8")`). -/
def utf8Encode (cs : List Char) : List ℕ := (cs.map utf8Char).flatten

/-! SHA-256, implemented concretely over lists of byte values (naturals < 256),
with 32-bit words as naturals reduced mod `2^32`. -/

/-- Reduce to a 32-bit word. -/
def w32 (n : ℕ) : ℕ := n % 4294967296

/-- Right rotation of a 32-bit word by `n` bits. -/
def rotr32 (n x : ℕ) : ℕ := w32 ((x >>> n) ||| (x <<< (32 - n)))

/-- SHA-256 round constants. -/
def sha256K : List ℕ :=
  [1116352408, 1899447441, 3049323471, 3921009573, 961987163,
   1508970993, 2453635748, 2870763221, 3624381080, 310598401,
   607225278, 1426881987, 1925078388, 2162078206, 2614888103,
   3248222580, 3835390401, 4022224774, 264347078, 604807628,
   770255983, 1249150122, 1555081692, 1996064986, 2554220882,
   2821834349, 2952996808, 3210313671, 3336571891, 3584528711,
   113926993, 338241895, 666307205, 773529912, 1294757372,
   1396182291, 1695183700, 1986661051, 2177026350, 2456956037,
   2730485921, 2820302411, 3259730800, 3345764771, 3516065817,
   3600352804, 4094571909, 275423344, 430227734, 506948616,
   659060556, 883997877, 958139571, 1322822218, 1537002063,
   1747873779, 1955562222, 2024104815, 2227730452, 2361852424,
   2428436474, 2756734187, 3204031479, 3329325298]

/-- SHA-256 initial hash state. -/
def sha256H0 : List ℕ :=
  [1779033703, 3144134277, 1013904242, 2773480762,
   1359893119, 2600822924, 528734635, 1541459225]

/-- Big-endian byte serialisation of `n` into `k` bytes. -/
def beBytes : ℕ → ℕ → List ℕ
  | 0, _ => []
  | k + 1, n => beBytes k (n / 256) ++ [n % 256]

/-- Group bytes into big-endian 32-bit words. -/
def beWords : List ℕ → List ℕ
  | b0 :: b1 :: b2 :: b3 :: rest =>
    (((b0 * 256 + b1) * 256 + b2) * 256 + b3) :: beWords rest
  | _ => []

/-- SHA-256 padding: `0x80`, zeros, then the 64-bit big-endian bit length. -/
def sha256Pad (msg : List ℕ) : List ℕ :=
  let len := msg.length
  msg ++ [128] ++ List.replicate ((64 - (len + 9) % 64) % 64) 0 ++ beBytes 8 (len * 8)

/-- Fuel-indexed helper for `chunksOf64` (structural recursion so that the
kernel can evaluate it). -/
def chunksOf64Aux : ℕ → List ℕ → List (List ℕ)
  | 0, _ => []
  | _, [] => []
  | fuel + 1, b :: bs => ((b :: bs).take 64) :: chunksOf64Aux fuel ((b :: bs).drop 64)

/-- Split a byte list into 64-byte blocks. -/
def chunksOf64 (bs : List ℕ) : List (List ℕ) := chunksOf64Aux bs.length bs

/-- SHA-256 small sigma 0. -/
def ssig0 (x : ℕ) : ℕ := rotr32 7 x ^^^ rotr32 18 x ^^^ (x >>> 3)

/-- SHA-256 small sigma 1. -/
def ssig1 (x : ℕ) : ℕ := rotr32 17 x ^^^ rotr32 19 x ^^^ (x >>> 10)

/-- SHA-256 big sigma 0. -/
def bsig0 (x : ℕ) : ℕ := rotr32 2 x ^^^ rotr32 13 x ^^^ rotr32 22 x

/-- SHA-256 big sigma 1. -/
def bsig1 (x : ℕ) : ℕ := rotr32 6 x ^^^ rotr32 11 x ^^^ rotr32 25 x

/-- Extend the 16 message words to the 64-entry schedule. -/
def schedExtend (ws : List ℕ) : List ℕ :=
  (List.range 48).foldl
    (fun acc i =>
      acc ++ [w32 (ssig1 (acc.getD (i + 14) 0) + acc.getD (i + 9) 0 +
                   ssig0 (acc.getD (i + 1) 0) + acc.getD i 0)])
    ws

/-- One SHA-256 compression round. The state is `[a,b,c,d,e,f,g,h]`. -/
def compressStep (st : List ℕ) (kw : ℕ × ℕ) : List ℕ :=
  match st with
  | [a, b, c, d, e, f, g, h] =>
    let ch := (e &&& f) ^^^ ((4294967295 - e) &&& g)
    let t1 := w32 (h + bsig1 e + ch + kw.1 + kw.2)
    let maj := (a &&& b) ^^^ (a &&& c) ^^^ (b &&& c)
    let t2 := w32 (bsig0 a + maj)
    [w32 (t1 + t2), a, b, c, w32 (d + t1), e, f, g]
  | other => other

/-- Process one 64-byte block. -/
def sha256Block (h : List ℕ) (block : List ℕ) : List ℕ :=
  let ws := schedExtend (beWords block)
  let st := (sha256K.zip ws).foldl compressStep h
  (h.zip st).map (fun p => w32 (p.1 + p.2))

/-- SHA-256 digest (32 bytes) of a byte list. -/
def sha256 (msg : List ℕ) : List ℕ :=
  (((chunksOf64 (sha256Pad msg)).foldl sha256Block sha256H0).map (beBytes 4)).flatten

/-- Lowercase hex digit. -/
def hexDigit (n : ℕ) : Char :=
  if n < 10 then Char.ofNat (48 + n) else Char.ofNat (87 + n)

/-- Lowercase hex rendering of a byte list (Python `.hexdigest()`). -/
def toHex (bs : List ℕ) : List Char :=
  (bs.map (fun b => [hexDigit (b / 16), hexDigit (b % 16)])).flatten

/-- Embeds `hash_text` from `app/utils/hashing.py`:
`sha256(" ".join(text.strip().lower().split()).encode("utf-8")).hexdigest()`. -/
def hash_text (text : List Char) : List Char :=
  toHex (sha256 (utf8Encode (normText text)))

/-- String-typed wrapper for `hash_text`. -/
def hash_text_str (s : String) : String := String.mk (hash_text s.data)

/-- Embeds `hash_url` from `app/utils/hashing.py`:
`sha256(url.strip().lower().encode("utf-8")).hexdigest()`. -/
def hash_url (url : List Char) : List Char :=
  toHex (sha256 (utf8Encode ((stripWs url).map lowerChar)))

/-- String-typed wrapper for `hash_url`. -/
def hash_url_str (s : String) : String := String.mk (hash_url s.data)

/-! JSON values and a concrete decoder, modelling Python's `json.loads` on
standard (RFC 8259) documents. Numbers are rationals. Simplifications relative
to CPython, none observable by any claim: the non-standard literals
`NaN`/`Infinity` are rejected (not representable in `ℚ`), lone-surrogate
escape sequences are rejected, and leading zeros in numbers are accepted. -/

inductive Json where
  | null
  | bool (b : Bool)
  | num (q : ℚ)
  | str (s : String)
  | arr (xs : List Json)
  | obj (kvs : List (String × Json))

/-- JSON inter-token whitespace. -/
def jSkipWs (cs : List Char) : List Char :=
  cs.dropWhile (fun c => c = ' ' || c = Char.ofNat 9 || c = Char.ofNat 10 || c = Char.ofNat 13)

/-- Hex digit value. -/
def hexVal (c : Char) : Option ℕ :=
  if 48 ≤ c.toNat ∧ c.toNat ≤ 57 then some (c.toNat - 48)
  else if 97 ≤ c.toNat ∧ c.toNat ≤ 102 then some (c.toNat - 87)
  else if 65 ≤ c.toNat ∧ c.toNat ≤ 70 then some (c.toNat - 55)
  else none

/-- Parse the body of a JSON string literal (after the opening quote),
returning the decoded string and the remainder after the closing quote. -/
def parseJStrAux : List Char → List Char → Option (String × List Char)
  | [], _ => none
  | c :: cs, acc =>
    if c = dquoteC then some (String.mk acc.reverse, cs)
    else if c = bslashC then
      match cs with
      | [] => none
      | e :: cs2 =>
        if e = dquoteC then parseJStrAux cs2 (dquoteC :: acc)
        else if e = bslashC then parseJStrAux cs2 (bslashC :: acc)
        else if e = '/' then parseJStrAux cs2 ('/' :: acc)
        else if e = 'b' then parseJStrAux cs2 (Char.ofNat 8 :: acc)
        else if e = 'f' then parseJStrAux cs2 (Char.ofNat 12 :: acc)
        else if e = 'n' then parseJStrAux cs2 (Char.ofNat 10 :: acc)
        else if e = 'r' then parseJStrAux cs2 (Char.ofNat 13 :: acc)
        else if e = 't' then parseJStrAux cs2 (Char.ofNat 9 :: acc)
        else if e = 'u' then
          match cs2 with
          | h1 :: h2 :: h3 :: h4 :: cs3 =>
            match hexVal h1, hexVal h2, hexVal h3, hexVal h4 with
            | some a, some b, some c3, some d =>
              let n := ((a * 16 + b) * 16 + c3) * 16 + d
              if 55296 ≤ n ∧ n ≤ 57343 then none
              else parseJStrAux cs3 (Char.ofNat n :: acc)
            | _, _, _, _ => none
          | _ => none
        else none
    else if c.toNat < 32 then none
    else parseJStrAux cs (c :: acc)

/-- Decimal digit value. -/
def digVal (c : Char) : Option ℕ :=
  if 48 ≤ c.toNat ∧ c.toNat ≤ 57 then some (c.toNat - 48) else none

/-- Take leading decimal digits. -/
def takeDigits : List Char → List ℕ × List Char
  | [] => ([], [])
  | c :: rest =>
    match digVal c with
    | some d => let p := takeDigits rest; (d :: p.1, p.2)
    | none => ([], c :: rest)

/-- Digits to a natural number. -/
def digitsToNat (ds : List ℕ) : ℕ := ds.foldl (fun a d => a * 10 + d) 0

/-- Parse an optional exponent part `[eE][+-]?digits`; fails only when an
exponent marker is present without digits. -/
def parseExpPart (cs : List Char) : Option (ℤ × List Char) :=
  match cs with
  | c :: rest =>
    if c = 'e' ∨ c = 'E' then
      let sr : Bool × List Char :=
        match rest with
        | d :: rest2 =>
          if d = '-' then (true, rest2)
          else if d = '+' then (false, rest2) else (false, rest)
        | [] => (false, [])
      let p := takeDigits sr.2
      if p.1.isEmpty then none
      else some (if sr.1 then -(digitsToNat p.1 : ℤ) else (digitsToNat p.1 : ℤ), p.2)
    else some (0, cs)
  | [] => some (0, [])

/-- Scale a rational by a power of ten. -/
def scaleTen (q : ℚ) (e : ℤ) : ℚ :=
  if 0 ≤ e then q * (10 : ℚ) ^ e.toNat else q / (10 : ℚ) ^ (-e).toNat

/-- Parse a JSON number literal. -/
def parseJNum (cs : List Char) : Option (ℚ × List Char) :=
  let sr : Bool × List Char :=
    match cs with
    | c :: rest => if c = '-' then (true, rest) else (false, cs)
    | [] => (false, [])
  let ip := takeDigits sr.2
  if ip.1.isEmpty then none
  else
    let fp : List ℕ × List Char :=
      match ip.2 with
      | c :: rest => if c = '.' then takeDigits rest else ([], ip.2)
      | [] => ([], [])
    if ip.2 ≠ fp.2 ∧ fp.1.isEmpty then none
    else
      match parseExpPart fp.2 with
      | none => none
      | some (e, cs4) =>
        let mag : ℚ := (digitsToNat ip.1 : ℚ) + (digitsToNat fp.1 : ℚ) / (10 : ℚ) ^ fp.1.length
        some (scaleTen (if sr.1 then -mag else mag) e, cs4)

/-- Parser mode: a whole value, the members of an object (with the members
decoded so far), or the elements of an array. A single mode-indexed function
keeps the recursion structural on the fuel, so the kernel can evaluate it. -/
inductive JMode where
  | val
  | members (acc : List (String × Json))
  | elems (acc : List Json)

/-- Fuel-indexed recursive-descent JSON parser. -/
def parseJ : ℕ → JMode → List Char → Option (Json × List Char)
  | 0, _, _ => none
  | fuel + 1, .val, cs =>
    (match jSkipWs cs with
     | [] => none
     | c :: rest =>
       if c = dquoteC then (parseJStrAux rest []).map (fun p => (Json.str p.1, p.2))
       else if c = lbraceC then
         match jSkipWs rest with
         | d :: rest2 =>
           if d = rbraceC then some (Json.obj [], rest2)
           else parseJ fuel (.members []) (jSkipWs rest)
         | [] => none
       else if c = '[' then
         match jSkipWs rest with
         | d :: rest2 =>
           if d = ']' then some (Json.arr [], rest2)
           else parseJ fuel (.elems []) (jSkipWs rest)
         | [] => none
       else if c = 't' then
         match rest with
         | 'r' :: 'u' :: 'e' :: rest2 => some (Json.bool true, rest2)
         | _ => none
       else if c = 'f' then
         match rest with
         | 'a' :: 'l' :: 's' :: 'e' :: rest2 => some (Json.bool false, rest2)
         | _ => none
       else if c = 'n' then
         match rest with
         | 'u' :: 'l' :: 'l' :: rest2 => some (Json.null, rest2)
         | _ => none
       else (parseJNum (c :: rest)).map (fun p => (Json.num p.1, p.2)))
  | fuel + 1, .members acc, cs =>
    (match jSkipWs cs with
     | c :: rest =>
       if c = dquoteC then
         match parseJStrAux rest [] with
         | some (key, cs2) =>
           match jSkipWs cs2 with
           | ':' :: cs3 =>
             match parseJ fuel .val cs3 with
             | some (v, cs4) =>
               match jSkipWs cs4 with
               | ',' :: cs5 => parseJ fuel (.members ((key, v) :: acc)) cs5
               | d :: cs5 =>
                 if d = rbraceC then some (Json.obj ((key, v) :: acc).reverse, cs5) else none
               | [] => none
             | none => none
           | _ => none
         | none => none
       else none
     | [] => none)
  | fuel + 1, .elems acc, cs =>
    (match parseJ fuel .val cs with
     | some (v, cs2) =>
       match jSkipWs cs2 with
       | ',' :: cs3 => parseJ fuel (.elems (v :: acc)) cs3
       | ']' :: cs3 => some (Json.arr (v :: acc).reverse, cs3)
       | _ => none
     | none => none)

/-- Parse one JSON value (fuel-indexed recursive descent). -/
def parseJVal (fuel : ℕ) (cs : List Char) : Option (Json × List Char) :=
  parseJ fuel .val cs

/-- Decode a whole character list as one JSON document (Python `json.loads`):
one value, surrounded only by whitespace. The fuel `length + 2` is ample:
every recursive step of `parseJ` first consumes at least one character. -/
def jsonDecodeL (cs : List Char) : Option Json :=
  match parseJVal (cs.length + 2) cs with
  | some (v, rest) => if (jSkipWs rest).isEmpty then some v else none
  | none => none

/-- String-typed wrapper for `jsonDecodeL`. -/
def jsonDecode (s : String) : Option Json := jsonDecodeL s.data

/-- Python `dict.get` on a decoded JSON object. `json.loads` keeps the last
occurrence of a duplicated key, hence the reversed search. -/
def jLookup (kvs : List (String × Json)) (k : String) : Option Json :=
  (kvs.reverse.find? (fun p => p.1 == k)).map Prod.snd

/-- Python truthiness of a decoded JSON value (`if llm_result["flagged"]:`). -/
def pyTruthy : Json → Bool
  | .null => false
  | .bool b => b
  | .num q => decide (q ≠ 0)
  | .str s => !s.isEmpty
  | .arr xs => !xs.isEmpty
  | .obj kvs => !kvs.isEmpty

/-- Python `float(string)`: optional surrounding whitespace, optional sign,
then `digits[.digits]`, `.digits` or `digits.`, with an optional exponent.
The special values `inf`/`nan` and digit underscores are not modelled
(mapped to failure; not representable in `ℚ` / not observable by claims). -/
def pyFloatOfString (s : String) : Option ℚ :=
  let cs := stripWs s.data
  let sr : Bool × List Char :=
    match cs with
    | c :: rest =>
      if c = '-' then (true, rest) else if c = '+' then (false, rest) else (false, cs)
    | [] => (false, [])
  let ip := takeDigits sr.2
  let fp : List ℕ × List Char :=
    match ip.2 with
    | c :: rest => if c = '.' then takeDigits rest else ([], ip.2)
    | [] => ([], [])
  if ip.1.isEmpty ∧ fp.1.isEmpty then none
  else
    match parseExpPart fp.2 with
    | none => none
    | some (e, rest) =>
      if rest.isEmpty then
        let mag : ℚ := (digitsToNat ip.1 : ℚ) + (digitsToNat fp.1 : ℚ) / (10 : ℚ) ^ fp.1.length
        some (scaleTen (if sr.1 then -mag else mag) e)
      else none

/-- Python `float(x)` on a decoded JSON value, as used for the `confidence`
field: numbers pass through, booleans coerce to 0/1, numeric strings are
parsed, everything else raises (modelled as `none`). -/
def pyFloat : Json → Option ℚ
  | .num q => some q
  | .bool b => some (if b then 1 else 0)
  | .str s => pyFloatOfString s
  | _ => none

/-- Classification taxonomy from `app/models/models.py` (`ClassificationType`). -/
inductive ClassificationType where
  | safe | toxic | spam | harassment | inappropriate
deriving DecidableEq, Repr

/-- The `classification_map.get(classification, ClassificationType.SAFE)`
lookup in `_parse_llm_response`: unknown values default to `SAFE`. -/
def classification_map (s : String) : ClassificationType :=
  if s = "safe" then .safe
  else if s = "toxic" then .toxic
  else if s = "spam" then .spam
  else if s = "harassment" then .harassment
  else if s = "inappropriate" then .inappropriate
  else .safe

/-- Python `str.lower()` (ASCII range). -/
def pyLowerStr (s : String) : String := String.mk (s.data.map lowerChar)

/-- Model of `re.search(r"\x7b.*\x7d", response_text, re.DOTALL)` followed by
`.group()`: the substring from the leftmost left brace to the rightmost right
brace, provided the latter comes after the former. -/
def extractBraced (cs : List Char) : Option (List Char) :=
  match cs.findIdx? (· == lbraceC) with
  | none => none
  | some i =>
    match cs.reverse.findIdx? (· == rbraceC) with
    | none => none
    | some rj =>
      let j := cs.length - 1 - rj
      if i < j then some ((cs.drop i).take (j - i + 1)) else none

/-- The dictionary returned by `_parse_llm_response` in
`app/services/llm_service.py`. `reasoning` and `flagged` are stored exactly as
decoded (Python performs no coercion on them), hence typed as `Json`. -/
structure LLMResult where
  classification : ClassificationType
  confidence : ℚ
  reasoning : Json
  flagged : Json
  llm_response : String

/-- The fallback dictionary of the `else` branch (no JSON found in the raw
response). -/
def fallbackNoJson (response_text : String) : LLMResult :=
  { classification := .safe, confidence := 1/2,
    reasoning := .str "Failed to parse LLM response",
    flagged := .bool false, llm_response := response_text }

/-- The fallback dictionary of the `except` branch. The Python reasoning text
is "Error parsing response: " followed by `str(e)`; the exception text is not
observable by any claim and is elided. -/
def fallbackExc (response_text : String) : LLMResult :=
  { classification := .safe, confidence := 1/2,
    reasoning := .str "Error parsing response",
    flagged := .bool false, llm_response := response_text }

/-- Embeds `_parse_llm_response` from `app/services/llm_service.py`. The
Python `try` block evaluates, in order: the brace-extraction regex,
`json.loads`, `.lower()` on the classification (raising `AttributeError` on a
non-string), and `float(...)` on the confidence (raising on non-coercible
values); any raise lands in the `except` fallback. -/
def parse_llm_response (response_text : String) : LLMResult :=
  match extractBraced response_text.data with
  | none => fallbackNoJson response_text
  | some frag =>
    match jsonDecodeL frag with
    | none => fallbackExc response_text
    | some (Json.obj kvs) =>
      match (jLookup kvs "classification").getD (.str "safe") with
      | Json.str cls =>
        match pyFloat ((jLookup kvs "confidence").getD (.num (1/2))) with
        | none => fallbackExc response_text
        | some conf =>
          { classification := classification_map (pyLowerStr cls),
            confidence := max 0 (min 1 conf),
            reasoning := (jLookup kvs "reasoning").getD (.str "No reasoning provided"),
            flagged := (jLookup kvs "flagged").getD (.bool false),
            llm_response := response_text }
      | _ => fallbackExc response_text
    | some _ => fallbackExc response_text

/-- Whether the raw response contains a decodable structured fragment (the
success condition of the brace-extraction plus `json.loads` pipeline). -/
def decodableFragment (s : String) : Bool :=
  ((extractBraced s.data).bind jsonDecodeL).isSome

/-- The decoded object of the structured fragment, when there is one. -/
def extractDecodedObj (s : String) : Option (List (String × Json)) :=
  match (extractBraced s.data).bind jsonDecodeL with
  | some (Json.obj kvs) => some kvs
  | _ => none

/-! The data model of `app/models/models.py` and a `World` record standing for
the database plus the counters of external effects (classification calls,
image fetches, scheduled background dispatches). -/

/-- Content kinds (`ContentType` in `app/models/models.py`). -/
inductive ContentType where
  | text | image
deriving DecidableEq, Repr

/-- Request lifecycle states (`ModerationStatus`). -/
inductive ModerationStatus where
  | pending | processing | completed | failed
deriving DecidableEq, Repr

/-- Notification channels (`NotificationChannel`). -/
inductive NotificationChannel where
  | slack | email
deriving DecidableEq, Repr

/-- Notification outcomes (`NotificationStatus`). -/
inductive NotificationStatus where
  | pending | sent | failed
deriving DecidableEq, Repr

/-- A `moderation_requests` row. `id` doubles as creation order: the table is
append-only with an autoincrementing primary key, so ascending `id` is
ascending `created_at`. -/
structure DBRequest where
  id : ℕ
  email : String
  content_type : ContentType
  content_hash : String
  status : ModerationStatus
deriving DecidableEq, Repr

/-- A `moderation_results` row (the stored Verdict). As with requests, `id`
stands in for `created_at`: rows are appended in creation order. -/
structure DBResult where
  id : ℕ
  request_id : ℕ
  classification : ClassificationType
  confidence : ℚ
  reasoning : Json
  llm_response : String

/-- A `notification_logs` row. The `sent_at` timestamp (copied from the
request's `created_at` in the source) carries no information any claim
observes and is elided. -/
structure NotificationLog where
  request_id : ℕ
  channel : NotificationChannel
  status : NotificationStatus
  error_message : Option String
deriving DecidableEq, Repr

/-- Arguments of one scheduled `send_notifications_background` task. -/
structure DispatchJob where
  request_id : ℕ
  email : String
  classification : ClassificationType
  content_type : String
  content_preview : String
  confidence : ℚ
  reasoning : Json

/-- The database (rows in insertion order) plus effect counters. A single id
counter feeds both tables; only the relative order of rows matters. -/
structure World where
  requests : List DBRequest
  results : List DBResult
  notifications : List NotificationLog
  jobs : List DispatchJob
  nextId : ℕ
  llmCalls : ℕ
  fetchCalls : ℕ

/-- The empty database. -/
def World.empty : World := ⟨[], [], [], [], 1, 0, 0⟩

/-- Well-formedness: ids already allocated are below the id counter. Every
world reachable from `World.empty` satisfies this. -/
def World.WF (w : World) : Prop :=
  (∀ r ∈ w.requests, r.id < w.nextId) ∧ (∀ res ∈ w.results, res.request_id < w.nextId)

/-- The filter of the dedup query in `moderate_text` / `moderate_image`:
`content_hash == h AND content_type == k`. -/
def requestMatches (h : String) (k : ContentType) (r : DBRequest) : Bool :=
  r.content_hash == h && r.content_type == k

/-- The dedup lookup: `db.query(ModerationRequest).filter(...).first()`. The
query has no `order_by` and no condition on results, so it returns the first
matching row in the table's physical (insertion) order. -/
def findExisting (w : World) (h : String) (k : ContentType) : Option DBRequest :=
  (w.requests.filter (requestMatches h k)).head?

/-- The latest-verdict lookup:
`filter(request_id == rid).order_by(created_at.desc()).first()` — the most
recently inserted matching result. -/
def latestResult (w : World) (rid : ℕ) : Option DBResult :=
  (w.results.filter (fun res => res.request_id == rid)).getLast?

/-- Embeds `moderation_request.status = st; db.commit()`. -/
def setStatus (rs : List DBRequest) (rid : ℕ) (st : ModerationStatus) : List DBRequest :=
  rs.map (fun r => if r.id = rid then { r with status := st } else r)

/-- Outcome of one upstream classification call: the raw textual response, or
an exception whose `str(e)` is the carried message. -/
inductive LLMReply where
  | ok (raw : String)
  | err (msg : String)

/-- A raised `HTTPException`. -/
structure HTTPError where
  status_code : ℕ
  detail : String
deriving DecidableEq, Repr

/-- The caller-facing response. `TextModerationResponse` and
`ImageModerationResponse` in `app/schemas/schemas.py` have identical fields;
one structure stands for both. -/
structure ModerationResponse where
  success : Bool
  request_id : ℕ
  classification : ClassificationType
  confidence : ℚ
  reasoning : Json
  message : String

/-- Embeds the `POST /api/v1/moderate/text` handler `moderate_text` from
`app/routes/moderation.py`. `env n` scripts the raw reply of the `n`-th
classification call made by the service singleton. The failure branch models
the handler's generic `except`: the request (created before the call) is
marked `FAILED` and an HTTP 500 carrying `str(e)` is raised. -/
def moderate_text (env : ℕ → LLMReply) (email text : String) (w : World) :
    World × Except HTTPError ModerationResponse :=
  let content_hash := hash_text_str text
  match (findExisting w content_hash .text).bind
      (fun r => (latestResult w r.id).map (fun res => (r, res))) with
  | some (r, res) =>
    (w, .ok { success := true, request_id := r.id, classification := res.classification,
              confidence := res.confidence, reasoning := res.reasoning,
              message := "Content analyzed successfully (cached result)" })
  | none =>
    let req : DBRequest :=
      { id := w.nextId, email := email, content_type := .text,
        content_hash := content_hash, status := .processing }
    let w1 : World := { w with requests := w.requests ++ [req], nextId := w.nextId + 1 }
    match env w.llmCalls with
    | .err e =>
      ({ w1 with llmCalls := w1.llmCalls + 1,
                 requests := setStatus w1.requests req.id .failed },
       .error ⟨500, "Failed to analyze text content: " ++ e⟩)
    | .ok raw =>
      let lr := parse_llm_response raw
      let res : DBResult :=
        { id := w1.nextId, request_id := req.id, classification := lr.classification,
          confidence := lr.confidence, reasoning := lr.reasoning, llm_response := raw }
      let w2 : World :=
        { w1 with llmCalls := w1.llmCalls + 1, nextId := w1.nextId + 1,
                  results := w1.results ++ [res],
                  requests := setStatus w1.requests req.id .completed }
      let w3 : World :=
        if pyTruthy lr.flagged then
          { w2 with jobs := w2.jobs ++
              [{ request_id := req.id, email := email, classification := lr.classification,
                 content_type := "text", content_preview := text.take 200,
                 confidence := lr.confidence, reasoning := lr.reasoning }] }
        else w2
      (w3, .ok { success := true, request_id := req.id, classification := lr.classification,
                 confidence := lr.confidence, reasoning := lr.reasoning,
                 message := "Content analyzed successfully" })

/-- Embeds the URL branch of the `POST /api/v1/moderate/image` handler
`moderate_image` (the `image_base64` branch is exercised by no claim and is
not embedded). `fetch` scripts `image_service.process_image(image_url=...)`;
the downloaded bytes and mime type influence nothing a claim observes and are
elided. Note the fetch happens before the dedup lookup, exactly as in the
source. -/
def moderate_image (env : ℕ → LLMReply) (fetch : String → Except String Unit)
    (email image_url : String) (w : World) :
    World × Except HTTPError ModerationResponse :=
  let w0 : World := { w with fetchCalls := w.fetchCalls + 1 }
  match fetch image_url with
  | .error e => (w0, .error ⟨500, "Failed to analyze image content: " ++ e⟩)
  | .ok _ =>
    let content_hash := hash_url_str image_url
    let content_preview := "Image from URL: " ++ image_url
    match (findExisting w0 content_hash .image).bind
        (fun r => (latestResult w0 r.id).map (fun res => (r, res))) with
    | some (r, res) =>
      (w0, .ok { success := true, request_id := r.id, classification := res.classification,
                 confidence := res.confidence, reasoning := res.reasoning,
                 message := "Content analyzed successfully (cached result)" })
    | none =>
      let req : DBRequest :=
        { id := w0.nextId, email := email, content_type := .image,
          content_hash := content_hash, status := .processing }
      let w1 : World := { w0 with requests := w0.requests ++ [req], nextId := w0.nextId + 1 }
      match env w0.llmCalls with
      | .err e =>
        ({ w1 with llmCalls := w1.llmCalls + 1,
                   requests := setStatus w1.requests req.id .failed },
         .error ⟨500, "Failed to analyze image content: " ++ e⟩)
      | .ok raw =>
        let lr := parse_llm_response raw
        let res : DBResult :=
          { id := w1.nextId, request_id := req.id, classification := lr.classification,
            confidence := lr.confidence, reasoning := lr.reasoning, llm_response := raw }
        let w2 : World :=
          { w1 with llmCalls := w1.llmCalls + 1, nextId := w1.nextId + 1,
                    results := w1.results ++ [res],
                    requests := setStatus w1.requests req.id .completed }
        let w3 : World :=
          if pyTruthy lr.flagged then
            { w2 with jobs := w2.jobs ++
                [{ request_id := req.id, email := email, classification := lr.classification,
                   content_type := "image", content_preview := content_preview,
                   confidence := lr.confidence, reasoning := lr.reasoning }] }
          else w2
        (w3, .ok { success := true, request_id := req.id, classification := lr.classification,
                   confidence := lr.confidence, reasoning := lr.reasoning,
                   message := "Content analyzed successfully" })

/-! Notification dispatch (`app/services/notification_service.py` and the
`send_notifications_background` task of `app/routes/moderation.py`). -/

/-- The channel configuration read at service construction. -/
structure NotifConfig where
  slack_webhook_url : Option String
  brevo_api_key : Option String
  brevo_sender_email : Option String

/-- One per-channel entry of the dictionary `send_notifications` returns:
`status` is the string `"sent"` or `"failed"`, `error` is `str(e)` when
failed. -/
structure SendResult where
  status : String
  error : Option String
deriving DecidableEq, Repr

/-- Embeds `NotificationService.send_notifications`. `slackSend` / `emailSend`
script the outcome of the two channel adapters (the message payloads they
build influence nothing a claim observes). Safe content is skipped; each
configured channel is attempted inside its own `try`, so one channel's
exception never prevents the other's attempt. -/
def send_notifications (cfg : NotifConfig) (slackSend emailSend : Except String Unit)
    (classification : ClassificationType) : List (NotificationChannel × SendResult) :=
  if classification = .safe then []
  else
    (match cfg.slack_webhook_url with
     | some _ =>
       match slackSend with
       | .ok _ => [(.slack, { status := "sent", error := none })]
       | .error e => [(.slack, { status := "failed", error := some e })]
     | none => []) ++
    (match cfg.brevo_api_key, cfg.brevo_sender_email with
     | some _, some _ =>
       match emailSend with
       | .ok _ => [(.email, { status := "sent", error := none })]
       | .error e => [(.email, { status := "failed", error := some e })]
     | _, _ => [])

/-- Embeds the `send_notifications_background` task of
`app/routes/moderation.py`: run the dispatcher for one job and append one
`notification_logs` row per attempted channel. The surrounding `try/except`
swallows everything, so the task never raises. -/
def send_notifications_background (cfg : NotifConfig)
    (slackSend emailSend : Except String Unit) (job : DispatchJob) (w : World) : World :=
  let results := send_notifications cfg slackSend emailSend job.classification
  { w with notifications := w.notifications ++ results.map (fun p =>
      { request_id := job.request_id, channel := p.1,
        status := if p.2.status = "sent" then .sent else .failed,
        error_message := p.2.error }) }

/-- FastAPI runs the scheduled background tasks after the response is handed
back: process every queued job. -/
def run_background (cfg : NotifConfig) (slackSend emailSend : Except String Unit)
    (w : World) : World :=
  w.jobs.foldl (fun acc job => send_notifications_background cfg slackSend emailSend job acc)
    { w with jobs := [] }

/-- A full text submission: the handler computes the response, then the
background dispatch runs. The response is fixed before any channel send. -/
def submitTextPipeline (env : ℕ → LLMReply) (cfg : NotifConfig)
    (slackSend emailSend : Except String Unit) (email text : String) (w : World) :
    World × Except HTTPError ModerationResponse :=
  let r := moderate_text env email text w
  (run_background cfg slackSend emailSend r.1, r.2)

/-! Concrete inputs used by counterexamples and witnesses. -/

/-- An upstream payload with a non-safe classification that reports
`flagged: false`. -/
def rawToxicUnflagged : String :=
  "\x7b\"classification\": \"toxic\", \"confidence\": 0.9, \"reasoning\": \"r\", \"flagged\": false\x7d"

/-- A well-formed harassment payload (the spec's own test scenario). -/
def rawHarassment : String :=
  "\x7b\"classification\": \"harassment\", \"confidence\": 0.92, \"reasoning\": \"targeted abuse\", \"flagged\": true\x7d"

/-- A payload with no confidence entry whose upstream `flagged` is `true`. -/
def rawSpamFlagged : String := "\x7b\"classification\": \"spam\", \"flagged\": true\x7d"

/-- An environment always returning `rawHarassment`. -/
def envHarassment : ℕ → LLMReply := fun _ => .ok rawHarassment

/-- A store holding one older request (id 1, verdict: toxic) and one newer
request (id 2, verdict: spam) for the same text fingerprint. -/
def twoVerdictWorld : World :=
  { requests :=
      [{ id := 1, email := "x@y.z", content_type := .text,
         content_hash := hash_text_str "dup text", status := .completed },
       { id := 2, email := "x@y.z", content_type := .text,
         content_hash := hash_text_str "dup text", status := .completed }],
    results :=
      [{ id := 3, request_id := 1, classification := .toxic, confidence := 9/10,
         reasoning := .str "a", llm_response := "ra" },
       { id := 4, request_id := 2, classification := .spam, confidence := 8/10,
         reasoning := .str "b", llm_response := "rb" }],
    notifications := [], jobs := [], nextId := 5, llmCalls := 2, fetchCalls := 0 }

/-- A store holding one verdict-less request (a prior failed classification)
for the fingerprint of `"Same text"`. -/
def verdictlessWorld : World :=
  { requests :=
      [{ id := 1, email := "x@y.z", content_type := .text,
         content_hash := hash_text_str "Same text", status := .failed }],
    results := [], notifications := [], jobs := [],
    nextId := 2, llmCalls := 1, fetchCalls := 0 }

/-- A notification configuration with both channels configured. -/
def bothChannelsCfg : NotifConfig :=
  ⟨some "https://hooks.example/T0/B0", some "brevo-key", some "sender@example.com"⟩

/-! Path-characterization lemmas for the text endpoint. -/

/-- The request row created on a cache miss. -/
def newRequest (email text : String) (w : World) : DBRequest :=
  { id := w.nextId, email := email, content_type := .text,
    content_hash := hash_text_str text, status := .processing }

/-- The verdict row stored on a successful cache miss. -/
def newResult (raw : String) (w : World) : DBResult :=
  { id := w.nextId + 1, request_id := w.nextId,
    classification := (parse_llm_response raw).classification,
    confidence := (parse_llm_response raw).confidence,
    reasoning := (parse_llm_response raw).reasoning, llm_response := raw }

/-- The world after a successful cache-miss submission. -/
def freshWorld (env : ℕ → LLMReply) (email text raw : String) (w : World) : World :=
  { w with
    requests := setStatus (w.requests ++ [newRequest email text w]) w.nextId .completed,
    results := w.results ++ [newResult raw w],
    nextId := w.nextId + 2, llmCalls := w.llmCalls + 1,
    jobs := w.jobs ++
      (if pyTruthy (parse_llm_response raw).flagged then
        [{ request_id := w.nextId, email := email,
           classification := (parse_llm_response raw).classification,
           content_type := "text", content_preview := text.take 200,
           confidence := (parse_llm_response raw).confidence,
           reasoning := (parse_llm_response raw).reasoning }]
      else []) }

/-- The request row created by the image endpoint on a cache miss. -/
def newImageRequest (email url : String) (w : World) : DBRequest :=
  { id := w.nextId, email := email, content_type := .image,
    content_hash := hash_url_str url, status := .processing }

/-- The world after a successful cache-miss image submission (note the
unconditional fetch-counter increment). -/
def freshImageWorld (env : ℕ → LLMReply) (email url raw : String) (w : World) : World :=
  { w with
    fetchCalls := w.fetchCalls + 1,
    requests := setStatus (w.requests ++ [newImageRequest email url w]) w.nextId .completed,
    results := w.results ++ [newResult raw w],
    nextId := w.nextId + 2, llmCalls := w.llmCalls + 1,
    jobs := w.jobs ++
      (if pyTruthy (parse_llm_response raw).flagged then
        [{ request_id := w.nextId, email := email,
           classification := (parse_llm_response raw).classification,
           content_type := "image", content_preview := "Image from URL: " ++ url,
           confidence := (parse_llm_response raw).confidence,
           reasoning := (parse_llm_response raw).reasoning }]
      else []) }

/-- Cache-hit characterization: a matching request with a stored verdict
returns that verdict unchanged and leaves the world untouched. -/
theorem moderate_text_cacheHit (env : ℕ → LLMReply) (email text : String) (w : World)
    (r : DBRequest) (res : DBResult)
    (hfind : findExisting w (hash_text_str text) .text = some r)
    (hres : latestResult w r.id = some res) :
    moderate_text env email text w =
      (w, .ok { success := true, request_id := r.id, classification := res.classification,
                confidence := res.confidence, reasoning := res.reasoning,
                message := "Content analyzed successfully (cached result)" }) := by
  simp [moderate_text, hfind, hres]

/-- Cache-miss success characterization. -/
theorem moderate_text_freshOk (env : ℕ → LLMReply) (email text raw : String) (w : World)
    (hmiss : (findExisting w (hash_text_str text) .text).bind
      (fun r => (latestResult w r.id).map (fun res => (r, res))) = none)
    (henv : env w.llmCalls = .ok raw) :
    moderate_text env email text w =
      (freshWorld env email text raw w,
       .ok { success := true, request_id := w.nextId,
             classification := (parse_llm_response raw).classification,
             confidence := (parse_llm_response raw).confidence,
             reasoning := (parse_llm_response raw).reasoning,
             message := "Content analyzed successfully" }) := by
  by_cases hp : pyTruthy (parse_llm_response raw).flagged <;>
    simp [moderate_text, hmiss, henv, freshWorld, newRequest, newResult, hp]

/-- Cache-miss failure characterization: the upstream exception marks the
created request `failed`, stores nothing else, and surfaces an HTTP 500 whose
detail embeds `str(e)`. -/
theorem moderate_text_freshErr (env : ℕ → LLMReply) (email text e : String) (w : World)
    (hmiss : (findExisting w (hash_text_str text) .text).bind
      (fun r => (latestResult w r.id).map (fun res => (r, res))) = none)
    (henv : env w.llmCalls = .err e) :
    moderate_text env email text w =
      ({ w with
         requests := setStatus (w.requests ++ [newRequest email text w]) w.nextId .failed,
         nextId := w.nextId + 1, llmCalls := w.llmCalls + 1 },
       .error ⟨500, "Failed to analyze text content: " ++ e⟩) := by
  simp [moderate_text, hmiss, henv, newRequest]

/-! Case analysis of the verdict parser. -/

/-- Every run of `_parse_llm_response` lands in one of its three shapes: the
no-fragment fallback, the exception fallback, or the success record. -/
theorem parse_llm_response_cases (s : String) :
    (parse_llm_response s = fallbackNoJson s) ∨
    (parse_llm_response s = fallbackExc s) ∨
    (∃ kvs cls conf,
      extractDecodedObj s = some kvs ∧
      (jLookup kvs "classification").getD (.str "safe") = .str cls ∧
      pyFloat ((jLookup kvs "confidence").getD (.num (1/2))) = some conf ∧
      parse_llm_response s =
        { classification := classification_map (pyLowerStr cls),
          confidence := max 0 (min 1 conf),
          reasoning := (jLookup kvs "reasoning").getD (.str "No reasoning provided"),
          flagged := (jLookup kvs "flagged").getD (.bool false),
          llm_response := s }) := by
  unfold parse_llm_response
  split
  · exact Or.inl rfl
  · rename_i frag hb
    split
    · exact Or.inr (Or.inl rfl)
    · rename_i kvs hj
      split
      · rename_i cls hc
        split
        · exact Or.inr (Or.inl rfl)
        · rename_i conf hf
          refine Or.inr (Or.inr ⟨kvs, cls, conf, ?_, hc, hf, rfl⟩)
          unfold extractDecodedObj
          rw [hb, Option.some_bind, hj]
      · exact Or.inr (Or.inl rfl)
    · exact Or.inr (Or.inl rfl)

/-- A decoded object implies the fragment pipeline succeeded. -/
theorem decodable_of_extractDecodedObj (s : String) (kvs : List (String × Json))
    (h : extractDecodedObj s = some kvs) : decodableFragment s = true := by
  unfold extractDecodedObj at h
  unfold decodableFragment
  cases hb : (extractBraced s.data).bind jsonDecodeL with
  | none => rw [hb] at h; exact absurd h (by simp)
  | some v => simp

/-- The success branch of the parser, characterised from its hypotheses. -/
theorem parse_llm_response_success (s : String) (kvs : List (String × Json))
    (cls : String) (conf : ℚ)
    (hdec : extractDecodedObj s = some kvs)
    (hcls : (jLookup kvs "classification").getD (.str "safe") = .str cls)
    (hconf : pyFloat ((jLookup kvs "confidence").getD (.num (1/2))) = some conf) :
    parse_llm_response s =
      { classification := classification_map (pyLowerStr cls),
        confidence := max 0 (min 1 conf),
        reasoning := (jLookup kvs "reasoning").getD (.str "No reasoning provided"),
        flagged := (jLookup kvs "flagged").getD (.bool false),
        llm_response := s } := by
  unfold parse_llm_response
  split
  · rename_i hb
    exact absurd hdec (by unfold extractDecodedObj; rw [hb]; simp)
  · rename_i frag hb
    split
    · rename_i hj
      exact absurd hdec (by unfold extractDecodedObj; rw [hb, Option.some_bind, hj]; simp)
    · rename_i kvs2 hj
      have hk : kvs2 = kvs := by
        unfold extractDecodedObj at hdec
        rw [hb, Option.some_bind, hj] at hdec
        simpa using hdec
      subst hk
      split
      · rename_i cls2 hc
        have he : cls2 = cls := by
          rw [hc] at hcls
          simpa using hcls
        subst he
        split
        · rename_i hfn
          rw [hconf] at hfn
          exact absurd hfn (by simp)
        · rename_i conf2 hf
          rw [hconf] at hf
          have : conf2 = conf := by simpa using hf.symm
          subst this
          rfl
      · rename_i hne
        exact absurd hcls (hne cls)
    · rename_i v hnotobj hscrut
      exfalso
      unfold extractDecodedObj at hdec
      rw [hb, Option.some_bind, hscrut] at hdec
      cases v with
      | obj kvs2 => exact hnotobj kvs2 rfl
      | null => exact absurd hdec (by simp)
      | bool b => exact absurd hdec (by simp)
      | num q => exact absurd hdec (by simp)
      | str s2 => exact absurd hdec (by simp)
      | arr xs => exact absurd hdec (by simp)

/-! Claim theorems. -/

/-- C3: the verdict parser is total — for every input string (empty, arbitrary
text, no braces) it returns a well-formed verdict with the raw text retained
and `confidence ∈ [0,1]`; when no decodable structured fragment is found it
returns `classification = safe`, `confidence = 0.5`, `flagged = false`. -/
theorem parser_totality (s : String) :
    (parse_llm_response s).llm_response = s ∧
    0 ≤ (parse_llm_response s).confidence ∧ (parse_llm_response s).confidence ≤ 1 ∧
    (decodableFragment s = false →
      (parse_llm_response s).classification = .safe ∧
      (parse_llm_response s).confidence = 1/2 ∧
      (parse_llm_response s).flagged = .bool false) := by
  rcases parse_llm_response_cases s with h | h | ⟨kvs, cls, conf, hdec, hcls, hconf, h⟩
  · rw [h]
    exact ⟨rfl, by norm_num [fallbackNoJson], by norm_num [fallbackNoJson],
           fun _ => ⟨rfl, rfl, rfl⟩⟩
  · rw [h]
    exact ⟨rfl, by norm_num [fallbackExc], by norm_num [fallbackExc],
           fun _ => ⟨rfl, rfl, rfl⟩⟩
  · rw [h]
    refine ⟨rfl, le_max_left 0 _, max_le (by norm_num) (min_le_left 1 conf), ?_⟩
    intro hfd
    rw [decodable_of_extractDecodedObj s kvs hdec] at hfd
    exact Bool.noConfusion hfd

/-- Witness for `parser_totality` at a plain-prose input without structure. -/
theorem parser_totality_witness :
    decodableFragment "This looks fine to me." = false ∧
    ((parse_llm_response "This looks fine to me.").classification = .safe ∧
     (parse_llm_response "This looks fine to me.").confidence = 1/2 ∧
     (parse_llm_response "This looks fine to me.").flagged = .bool false) :=
  ⟨by decide, (parser_totality "This looks fine to me.").2.2.2 (by decide)⟩

/-- C4: for every raw response the parsed confidence lies in [0,1]; it equals
0.5 whenever the decoded object carries no confidence entry, and whenever the
raw value fails Python's float coercion (non-numeric). -/
theorem confidence_clamping (s : String) :
    (0 ≤ (parse_llm_response s).confidence ∧ (parse_llm_response s).confidence ≤ 1) ∧
    (∀ kvs, extractDecodedObj s = some kvs →
      (jLookup kvs "confidence" = none → (parse_llm_response s).confidence = 1/2) ∧
      (∀ v, jLookup kvs "confidence" = some v → pyFloat v = none →
        (parse_llm_response s).confidence = 1/2)) := by
  rcases parse_llm_response_cases s with h | h | ⟨kvs, cls, conf, hdec, hcls, hconf, h⟩
  · exact ⟨by rw [h]; constructor <;> norm_num [fallbackNoJson],
           fun kvs' _ => ⟨fun _ => by rw [h]; rfl, fun v _ _ => by rw [h]; rfl⟩⟩
  · exact ⟨by rw [h]; constructor <;> norm_num [fallbackExc],
           fun kvs' _ => ⟨fun _ => by rw [h]; rfl, fun v _ _ => by rw [h]; rfl⟩⟩
  · refine ⟨⟨by rw [h]; exact le_max_left 0 _,
             by rw [h]; exact max_le (by norm_num) (min_le_left 1 conf)⟩, ?_⟩
    intro kvs' hk
    rw [hdec] at hk
    have hkk : kvs = kvs' := by injection hk
    subst hkk
    constructor
    · intro hmiss
      rw [hmiss] at hconf
      simp only [Option.getD_none, pyFloat] at hconf
      have hcv : conf = 1/2 := by
        injection hconf with hv
        exact hv.symm
      rw [h, hcv]
      show max 0 (min 1 (1/2 : ℚ)) = 1/2
      rw [min_eq_right (by norm_num : (1:ℚ)/2 ≤ 1), max_eq_right (by norm_num : (0:ℚ) ≤ 1/2)]
    · intro v hv hnone
      rw [hv] at hconf
      simp only [Option.getD_some] at hconf
      rw [hnone] at hconf
      exact Option.noConfusion hconf

/-- Witness for `confidence_clamping`: a payload with no confidence entry. -/
theorem confidence_clamping_witness :
    extractDecodedObj "\x7b\"classification\": \"toxic\"\x7d" =
      some [("classification", Json.str "toxic")] ∧
    jLookup [("classification", Json.str "toxic")] "confidence" = none ∧
    (parse_llm_response "\x7b\"classification\": \"toxic\"\x7d").confidence = 1/2 :=
  ⟨rfl, rfl,
   ((confidence_clamping "\x7b\"classification\": \"toxic\"\x7d").2
      [("classification", Json.str "toxic")] rfl).1 rfl⟩

/-- C1 (amended): the Verdict's `flagged` field equals the upstream payload's
`flagged` value (default `false` when absent) — the Orchestrator does not
recompute it as `classification != safe` — and notification dispatch is gated
solely on the truthiness of that upstream value. -/
theorem flagged_taken_from_upstream (env : ℕ → LLMReply) (email text raw : String)
    (w : World) (kvs : List (String × Json)) (cls : String) (conf : ℚ)
    (hclean : findExisting w (hash_text_str text) .text = none)
    (henv : env w.llmCalls = .ok raw)
    (hdec : extractDecodedObj raw = some kvs)
    (hcls : (jLookup kvs "classification").getD (.str "safe") = .str cls)
    (hconf : pyFloat ((jLookup kvs "confidence").getD (.num (1/2))) = some conf) :
    (parse_llm_response raw).flagged = (jLookup kvs "flagged").getD (.bool false) ∧
    (moderate_text env email text w).1.jobs.length =
      w.jobs.length +
        (if pyTruthy ((jLookup kvs "flagged").getD (.bool false)) then 1 else 0) := by
  have hp := parse_llm_response_success raw kvs cls conf hdec hcls hconf
  have hmiss : (findExisting w (hash_text_str text) .text).bind
      (fun r => (latestResult w r.id).map (fun res => (r, res))) = none := by
    rw [hclean]; rfl
  refine ⟨by rw [hp], ?_⟩
  rw [moderate_text_freshOk env email text raw w hmiss henv]
  by_cases hfl : pyTruthy ((jLookup kvs "flagged").getD (.bool false)) <;>
    simp [freshWorld, hp, hfl]

/-- Witness for `flagged_taken_from_upstream` at a flagged spam payload. -/
theorem flagged_taken_from_upstream_witness :
    findExisting World.empty (hash_text_str "spam text") .text = none ∧
    ((parse_llm_response rawSpamFlagged).flagged = Json.bool true ∧
     (moderate_text (fun _ => .ok rawSpamFlagged) "u@e.co" "spam text"
         World.empty).1.jobs.length =
       0 + (if pyTruthy (Json.bool true) then 1 else 0)) := by
  refine ⟨rfl, ?_⟩
  have h := flagged_taken_from_upstream (fun _ => .ok rawSpamFlagged) "u@e.co" "spam text"
    rawSpamFlagged World.empty
    [("classification", Json.str "spam"), ("flagged", Json.bool true)]
    "spam" (1/2) rfl rfl rfl rfl rfl
  exact ⟨by rw [h.1]; rfl, by rw [h.2]; rfl⟩

/-- C1 counterexample: an upstream payload classifying `toxic` but reporting
`flagged: false` produces a Verdict with `flagged = false` (so
`flagged ≠ (classification != safe)`), and the submission schedules no
notification dispatch despite the non-safe classification. -/
theorem flagged_recompute_cex :
    (parse_llm_response rawToxicUnflagged).classification = .toxic ∧
    (parse_llm_response rawToxicUnflagged).classification ≠ .safe ∧
    (parse_llm_response rawToxicUnflagged).flagged = .bool false ∧
    pyTruthy (parse_llm_response rawToxicUnflagged).flagged = false ∧
    (moderate_text (fun _ => .ok rawToxicUnflagged) "user@example.com"
        "abusive message" World.empty).1.jobs = [] :=
  ⟨by decide, by decide, rfl, by decide, rfl⟩

/-- C7 (amended): a failed classification call marks the created request
`failed`, stores no verdict row, schedules no dispatch, and raises an HTTP 500
whose detail is the fixed prefix followed by `str(e)` — so the upstream error
text appears verbatim in the caller-visible message rather than being kept
generic. -/
theorem upstream_failure_marks_failed (env : ℕ → LLMReply) (email text e : String)
    (w : World)
    (hclean : findExisting w (hash_text_str text) .text = none)
    (henv : env w.llmCalls = .err e) :
    (moderate_text env email text w).2 =
      .error ⟨500, "Failed to analyze text content: " ++ e⟩ ∧
    (moderate_text env email text w).1.results = w.results ∧
    (moderate_text env email text w).1.jobs = w.jobs ∧
    (moderate_text env email text w).1.llmCalls = w.llmCalls + 1 ∧
    ∃ r ∈ (moderate_text env email text w).1.requests,
      r.id = w.nextId ∧ r.content_hash = hash_text_str text ∧
      r.content_type = .text ∧ r.status = .failed := by
  have hmiss : (findExisting w (hash_text_str text) .text).bind
      (fun r => (latestResult w r.id).map (fun res => (r, res))) = none := by
    rw [hclean]; rfl
  rw [moderate_text_freshErr env email text e w hmiss henv]
  refine ⟨rfl, rfl, rfl, rfl,
    ⟨{ newRequest email text w with status := .failed }, ?_, rfl, rfl, rfl, rfl⟩⟩
  unfold setStatus
  refine List.mem_map.mpr ⟨newRequest email text w, ?_, ?_⟩
  · exact List.mem_append_right _ (List.mem_singleton.mpr rfl)
  · simp [newRequest]

/-- Witness for `upstream_failure_marks_failed` on an empty store. -/
theorem upstream_failure_witness :
    findExisting World.empty (hash_text_str "hello") .text = none ∧
    (moderate_text (fun _ => .err "boom") "u@e.co" "hello" World.empty).2 =
      .error ⟨500, "Failed to analyze text content: " ++ "boom"⟩ :=
  ⟨rfl, (upstream_failure_marks_failed (fun _ => .err "boom") "u@e.co" "hello" "boom"
    World.empty rfl rfl).1⟩

/-- C7 counterexample: the caller-visible detail embeds the upstream
exception text verbatim ("connection timed out"), contradicting the claim
that the failure message is generic and never contains it. -/
theorem upstream_error_leak_cex :
    (moderate_text (fun _ => .err "connection timed out") "a@b.c" "some text"
        World.empty).2 =
      .error ⟨500, "Failed to analyze text content: " ++ "connection timed out"⟩ :=
  rfl

/-- C10: a dedup hit on a request with no stored verdict does not return
early — a second request with the same fingerprint and kind is created and
the classification client is invoked again. -/
theorem verdictless_request_reclassified (env : ℕ → LLMReply) (email text raw : String)
    (w : World) (r : DBRequest)
    (hfind : findExisting w (hash_text_str text) .text = some r)
    (hnores : latestResult w r.id = none)
    (henv : env w.llmCalls = .ok raw) :
    (moderate_text env email text w).1.llmCalls = w.llmCalls + 1 ∧
    (moderate_text env email text w).1.requests.length = w.requests.length + 1 ∧
    (moderate_text env email text w).1.results.length = w.results.length + 1 ∧
    ∃ nr ∈ (moderate_text env email text w).1.requests,
      nr.id = w.nextId ∧ nr.content_hash = hash_text_str text ∧
      nr.content_type = .text := by
  have hmiss : (findExisting w (hash_text_str text) .text).bind
      (fun r => (latestResult w r.id).map (fun res => (r, res))) = none := by
    rw [hfind, Option.some_bind, hnores]; rfl
  rw [moderate_text_freshOk env email text raw w hmiss henv]
  refine ⟨rfl, by simp [freshWorld, setStatus], by simp [freshWorld], ?_⟩
  refine ⟨{ newRequest email text w with status := .completed }, ?_, rfl, rfl, rfl⟩
  show _ ∈ (freshWorld env email text raw w).requests
  unfold freshWorld setStatus
  refine List.mem_map.mpr ⟨newRequest email text w, ?_, ?_⟩
  · exact List.mem_append_right _ (List.mem_singleton.mpr rfl)
  · simp [newRequest]

/-- Witness for `verdictless_request_reclassified` on a store holding one
verdict-less (previously failed) request for the same fingerprint. -/
theorem verdictless_request_witness :
    findExisting verdictlessWorld (hash_text_str "Same text") .text =
      some { id := 1, email := "x@y.z", content_type := .text,
             content_hash := hash_text_str "Same text", status := .failed } ∧
    latestResult verdictlessWorld 1 = none ∧
    (moderate_text envHarassment "a@b.c" "Same text" verdictlessWorld).1.llmCalls = 2 ∧
    (moderate_text envHarassment "a@b.c" "Same text" verdictlessWorld).1.requests.length = 2 := by
  have h := verdictless_request_reclassified envHarassment "a@b.c" "Same text"
    rawHarassment verdictlessWorld
    { id := 1, email := "x@y.z", content_type := .text,
      content_hash := hash_text_str "Same text", status := .failed }
    (by decide) rfl rfl
  exact ⟨by decide, rfl, h.1, h.2.1⟩

/-- C6 (amended): the dedup lookup selects the EARLIEST-created request with
matching fingerprint and kind — with no regard to whether it has a verdict —
and a duplicate submission returns that request's latest verdict when it has
one. -/
theorem dedup_selects_earliest (env : ℕ → LLMReply) (email text : String) (w : World)
    (r : DBRequest) (res : DBResult)
    (hsort : w.requests.Pairwise (fun a b => a.id < b.id))
    (hfind : findExisting w (hash_text_str text) .text = some r)
    (hres : latestResult w r.id = some res) :
    requestMatches (hash_text_str text) .text r = true ∧
    (∀ r' ∈ w.requests, requestMatches (hash_text_str text) .text r' = true →
      r.id ≤ r'.id) ∧
    moderate_text env email text w =
      (w, .ok { success := true, request_id := r.id, classification := res.classification,
                confidence := res.confidence, reasoning := res.reasoning,
                message := "Content analyzed successfully (cached result)" }) := by
  unfold findExisting at hfind
  obtain ⟨tl, htl⟩ := List.head?_eq_some_iff.mp hfind
  have hmem : r ∈ w.requests.filter (requestMatches (hash_text_str text) .text) := by
    rw [htl]; exact List.mem_cons_self _ _
  have hmatch := List.of_mem_filter hmem
  refine ⟨hmatch, ?_, ?_⟩
  · intro r' hr' hm'
    have hmem' : r' ∈ w.requests.filter (requestMatches (hash_text_str text) .text) :=
      List.mem_filter.mpr ⟨hr', hm'⟩
    rw [htl] at hmem'
    rcases List.mem_cons.mp hmem' with h | h
    · exact h ▸ le_refl _
    · have hpw : (w.requests.filter
          (requestMatches (hash_text_str text) .text)).Pairwise (fun a b => a.id < b.id) :=
        List.Pairwise.sublist (List.filter_sublist _) hsort
      rw [htl] at hpw
      exact le_of_lt ((List.pairwise_cons.mp hpw).1 r' h)
  · exact moderate_text_cacheHit env email text w r res
      (by unfold findExisting; rw [htl]; rfl) hres

/-- Witness for `dedup_selects_earliest` on `twoVerdictWorld`. -/
theorem dedup_selects_earliest_witness :
    twoVerdictWorld.requests.Pairwise (fun a b => a.id < b.id) ∧
    (moderate_text envHarassment "q@w.e" "dup text" twoVerdictWorld).2 =
      .ok { success := true, request_id := 1, classification := .toxic,
            confidence := 9/10, reasoning := .str "a",
            message := "Content analyzed successfully (cached result)" } := by
  have h := dedup_selects_earliest envHarassment "q@w.e" "dup text" twoVerdictWorld
    { id := 1, email := "x@y.z", content_type := .text,
      content_hash := hash_text_str "dup text", status := .completed }
    { id := 3, request_id := 1, classification := .toxic, confidence := 9/10,
      reasoning := .str "a", llm_response := "ra" }
    (by decide) (by decide) rfl
  exact ⟨by decide, by rw [h.2.2]⟩

/-- C6 counterexample: with two matching prior requests — id 1 (earlier,
verdict `toxic`) and id 2 (most recent, verdict `spam`) — the duplicate
submission returns request 1's verdict, not the most recently created
request-with-verdict's. -/
theorem dedup_most_recent_cex :
    latestResult twoVerdictWorld 2 =
      some { id := 4, request_id := 2, classification := .spam, confidence := 8/10,
             reasoning := .str "b", llm_response := "rb" } ∧
    (moderate_text envHarassment "q@w.e" "dup text" twoVerdictWorld).2 =
      .ok { success := true, request_id := 1, classification := .toxic,
            confidence := 9/10, reasoning := .str "a",
            message := "Content analyzed successfully (cached result)" } ∧
    ClassificationType.toxic ≠ ClassificationType.spam :=
  ⟨rfl, rfl, by decide⟩

/-- C8: per-channel isolation — with both channels configured and a non-safe
classification, a raising channel is recorded `failed` with its error detail
while the other channel is still attempted and recorded `sent` (in either
order of failure), and the submit caller's response is unaffected by the
channel outcomes. -/
theorem per_channel_isolation (cfg : NotifConfig) (su ke se e : String)
    (hs : cfg.slack_webhook_url = some su) (hk : cfg.brevo_api_key = some ke)
    (hse : cfg.brevo_sender_email = some se)
    (job : DispatchJob) (hcls : job.classification ≠ .safe) (w : World) :
    send_notifications cfg (.error e) (.ok ()) job.classification =
      [(.slack, { status := "failed", error := some e }),
       (.email, { status := "sent", error := none })] ∧
    send_notifications cfg (.ok ()) (.error e) job.classification =
      [(.slack, { status := "sent", error := none }),
       (.email, { status := "failed", error := some e })] ∧
    (send_notifications_background cfg (.error e) (.ok ()) job w).notifications =
      w.notifications ++
        [{ request_id := job.request_id, channel := .slack, status := .failed,
           error_message := some e },
         { request_id := job.request_id, channel := .email, status := .sent,
           error_message := none }] ∧
    (∀ env email text w0 s1 e1 s2 e2,
      (submitTextPipeline env cfg s1 e1 email text w0).2 =
        (submitTextPipeline env cfg s2 e2 email text w0).2) := by
  refine ⟨?_, ?_, ?_, fun env email text w0 s1 e1 s2 e2 => rfl⟩
  · simp [send_notifications, hs, hk, hse, hcls]
  · simp [send_notifications, hs, hk, hse, hcls]
  · simp [send_notifications_background, send_notifications, hs, hk, hse, hcls]

/-- Witness for `per_channel_isolation` with a concrete configuration and a
flagged toxic job. -/
theorem per_channel_isolation_witness :
    bothChannelsCfg.slack_webhook_url = some "https://hooks.example/T0/B0" ∧
    (DispatchJob.classification ⟨7, "a@b.c", .toxic, "text", "p", 9/10, .str "r"⟩ ≠
      ClassificationType.safe) ∧
    send_notifications bothChannelsCfg (.error "slack down") (.ok ())
        (DispatchJob.classification ⟨7, "a@b.c", .toxic, "text", "p", 9/10, .str "r"⟩) =
      [(.slack, { status := "failed", error := some "slack down" }),
       (.email, { status := "sent", error := none })] := by
  refine ⟨rfl, by decide, ?_⟩
  exact (per_channel_isolation bothChannelsCfg "https://hooks.example/T0/B0" "brevo-key"
    "sender@example.com" "slack down" rfl rfl rfl
    ⟨7, "a@b.c", .toxic, "text", "p", 9/10, .str "r"⟩ (by decide) World.empty).1

/-! Second-submission lookup lemmas, feeding the dedup-idempotence claims. -/

/-- The dedup predicate ignores the status field. -/
theorem requestMatches_setStatus_elem (h : String) (k : ContentType) (rid : ℕ)
    (st : ModerationStatus) (r : DBRequest) :
    requestMatches h k (if r.id = rid then { r with status := st } else r) =
      requestMatches h k r := by
  split <;> rfl

/-- Filtering the dedup predicate commutes with a status update. -/
theorem filter_setStatus (h : String) (k : ContentType) (rs : List DBRequest)
    (rid : ℕ) (st : ModerationStatus) :
    (setStatus rs rid st).filter (requestMatches h k) =
      (rs.filter (requestMatches h k)).map
        (fun r => if r.id = rid then { r with status := st } else r) := by
  induction rs with
  | nil => rfl
  | cons a as ih =>
    unfold setStatus at ih ⊢
    rw [List.map_cons, List.filter_cons, List.filter_cons, requestMatches_setStatus_elem]
    by_cases ha : requestMatches h k a = true
    · rw [if_pos ha, if_pos ha, List.map_cons, ih]
    · rw [if_neg ha, if_neg ha, ih]

/-- After a fresh successful text submission into a store with no matching
request, the dedup query finds exactly the new (completed) request, and the
new verdict row is its latest result. -/
theorem freshWorld_lookup (env : ℕ → LLMReply) (email text raw : String) (w : World)
    (hclean : findExisting w (hash_text_str text) .text = none)
    (hwf : ∀ res ∈ w.results, res.request_id < w.nextId) :
    findExisting (freshWorld env email text raw w) (hash_text_str text) .text =
      some { id := w.nextId, email := email, content_type := .text,
             content_hash := hash_text_str text, status := .completed } ∧
    latestResult (freshWorld env email text raw w) w.nextId = some (newResult raw w) := by
  constructor
  · unfold findExisting at hclean ⊢
    have hnil : w.requests.filter (requestMatches (hash_text_str text) .text) = [] :=
      List.head?_eq_none_iff.mp hclean
    have hreq : (freshWorld env email text raw w).requests =
        setStatus (w.requests ++ [newRequest email text w]) w.nextId .completed := rfl
    rw [hreq, filter_setStatus, List.filter_append, hnil]
    have hm : requestMatches (hash_text_str text) .text (newRequest email text w) = true := by
      simp [requestMatches, newRequest]
    simp only [List.nil_append, List.filter_cons, hm, if_true, List.filter_nil,
               List.map_cons, List.map_nil, List.head?_cons, Option.some.injEq]
    simp [newRequest]
  · unfold latestResult
    have hres : (freshWorld env email text raw w).results =
        w.results ++ [newResult raw w] := rfl
    rw [hres, List.filter_append]
    have hnil2 : w.results.filter (fun res => res.request_id == w.nextId) = [] := by
      rw [List.filter_eq_nil_iff]
      intro res hresm
      simp [Nat.ne_of_lt (hwf res hresm)]
    rw [hnil2]
    simp [newResult]

/-- C2 (amended): submitting the same text twice with no prior matching
request in the store — so the first call is the one that creates the request
and durably stores the verdict — makes the second call a pure cache hit: it
returns the same verdict and request id, changes nothing in the store,
performs no further classification call (exactly one in total), and schedules
no further dispatch. -/
theorem dedup_idempotent_on_clean_store (env : ℕ → LLMReply)
    (email1 email2 text raw : String) (w : World)
    (hclean : findExisting w (hash_text_str text) .text = none)
    (hwf : ∀ res ∈ w.results, res.request_id < w.nextId)
    (henv : env w.llmCalls = .ok raw) :
    (moderate_text env email2 text (moderate_text env email1 text w).1).1 =
      (moderate_text env email1 text w).1 ∧
    (moderate_text env email2 text (moderate_text env email1 text w).1).1.llmCalls =
      w.llmCalls + 1 ∧
    ∃ resp1 resp2,
      (moderate_text env email1 text w).2 = .ok resp1 ∧
      (moderate_text env email2 text (moderate_text env email1 text w).1).2 = .ok resp2 ∧
      resp2.request_id = resp1.request_id ∧
      resp2.classification = resp1.classification ∧
      resp2.confidence = resp1.confidence ∧
      resp2.reasoning = resp1.reasoning ∧
      resp2.message = "Content analyzed successfully (cached result)" := by
  have hmiss : (findExisting w (hash_text_str text) .text).bind
      (fun r => (latestResult w r.id).map (fun res => (r, res))) = none := by
    rw [hclean]; rfl
  have h1 := moderate_text_freshOk env email1 text raw w hmiss henv
  obtain ⟨hfind2, hres2⟩ := freshWorld_lookup env email1 text raw w hclean hwf
  have h2 := moderate_text_cacheHit env email2 text (freshWorld env email1 text raw w)
    _ _ hfind2 hres2
  refine ⟨by simp only [h1, h2],
          by simp only [h1, h2]; try rfl,
          { success := true, request_id := w.nextId,
            classification := (parse_llm_response raw).classification,
            confidence := (parse_llm_response raw).confidence,
            reasoning := (parse_llm_response raw).reasoning,
            message := "Content analyzed successfully" },
          { success := true, request_id := w.nextId,
            classification := (newResult raw w).classification,
            confidence := (newResult raw w).confidence,
            reasoning := (newResult raw w).reasoning,
            message := "Content analyzed successfully (cached result)" },
          by simp only [h1],
          by simp only [h1, h2]; try rfl,
          rfl, rfl, rfl, rfl, rfl⟩

/-- Witness for `dedup_idempotent_on_clean_store` on the empty store. -/
theorem dedup_idempotent_witness :
    findExisting World.empty (hash_text_str "hello world") .text = none ∧
    (moderate_text envHarassment "b@c.d" "hello world"
       (moderate_text envHarassment "a@b.c" "hello world" World.empty).1).1 =
      (moderate_text envHarassment "a@b.c" "hello world" World.empty).1 :=
  ⟨rfl,
   (dedup_idempotent_on_clean_store envHarassment "a@b.c" "b@c.d" "hello world"
     rawHarassment World.empty rfl (by decide) rfl).1⟩

/-- C2 counterexample: starting from a store holding a verdict-less request
with the same fingerprint (a prior failed classification), the first call
durably stores a verdict, yet the second call still classifies again (two
further client calls in total, three requests), contradicting the claim as
universally stated. -/
theorem dedup_idempotent_cex :
    (moderate_text envHarassment "a@b.c" "Same text" verdictlessWorld).1.results.length = 1 ∧
    (moderate_text envHarassment "d@e.f" "Same text"
       (moderate_text envHarassment "a@b.c" "Same text" verdictlessWorld).1).1.llmCalls = 3 ∧
    (moderate_text envHarassment "d@e.f" "Same text"
       (moderate_text envHarassment "a@b.c" "Same text" verdictlessWorld).1).1.requests.length = 3 := by
  exact ⟨by decide, by decide, by decide⟩

/-! Image endpoint lemmas and claims. -/

/-- Image cache-hit characterization: the fetch still happens, then the
stored verdict is returned. -/
theorem moderate_image_cacheHit (env : ℕ → LLMReply) (fetch : String → Except String Unit)
    (email url : String) (w : World) (r : DBRequest) (res : DBResult)
    (hfetch : fetch url = .ok ())
    (hfind : findExisting w (hash_url_str url) .image = some r)
    (hres : latestResult w r.id = some res) :
    moderate_image env fetch email url w =
      ({ w with fetchCalls := w.fetchCalls + 1 },
       .ok { success := true, request_id := r.id, classification := res.classification,
             confidence := res.confidence, reasoning := res.reasoning,
             message := "Content analyzed successfully (cached result)" }) := by
  have hfind' : findExisting { w with fetchCalls := w.fetchCalls + 1 }
      (hash_url_str url) .image = some r := hfind
  have hres' : latestResult { w with fetchCalls := w.fetchCalls + 1 } r.id = some res := hres
  simp [moderate_image, hfetch, hfind', hres']

/-- Image cache-miss success characterization. -/
theorem moderate_image_freshOk (env : ℕ → LLMReply) (fetch : String → Except String Unit)
    (email url raw : String) (w : World)
    (hfetch : fetch url = .ok ())
    (hmiss : (findExisting w (hash_url_str url) .image).bind
      (fun r => (latestResult w r.id).map (fun res => (r, res))) = none)
    (henv : env w.llmCalls = .ok raw) :
    moderate_image env fetch email url w =
      (freshImageWorld env email url raw w,
       .ok { success := true, request_id := w.nextId,
             classification := (parse_llm_response raw).classification,
             confidence := (parse_llm_response raw).confidence,
             reasoning := (parse_llm_response raw).reasoning,
             message := "Content analyzed successfully" }) := by
  have hmiss' : (findExisting { w with fetchCalls := w.fetchCalls + 1 }
      (hash_url_str url) .image).bind
      (fun r => (latestResult { w with fetchCalls := w.fetchCalls + 1 } r.id).map
        (fun res => (r, res))) = none := hmiss
  have henv' : env ({ w with fetchCalls := w.fetchCalls + 1 } : World).llmCalls = .ok raw :=
    henv
  by_cases hp : pyTruthy (parse_llm_response raw).flagged <;>
    simp [moderate_image, hfetch, hmiss', henv', freshImageWorld, newImageRequest,
          newResult, hp]

/-- After a fresh successful image submission into a store with no matching
request, the dedup query finds exactly the new (completed) request, and the
new verdict row is its latest result. -/
theorem freshImageWorld_lookup (env : ℕ → LLMReply) (email url raw : String) (w : World)
    (hclean : findExisting w (hash_url_str url) .image = none)
    (hwf : ∀ res ∈ w.results, res.request_id < w.nextId) :
    findExisting (freshImageWorld env email url raw w) (hash_url_str url) .image =
      some { id := w.nextId, email := email, content_type := .image,
             content_hash := hash_url_str url, status := .completed } ∧
    latestResult (freshImageWorld env email url raw w) w.nextId = some (newResult raw w) := by
  constructor
  · unfold findExisting at hclean ⊢
    have hnil : w.requests.filter (requestMatches (hash_url_str url) .image) = [] :=
      List.head?_eq_none_iff.mp hclean
    have hreq : (freshImageWorld env email url raw w).requests =
        setStatus (w.requests ++ [newImageRequest email url w]) w.nextId .completed := rfl
    rw [hreq, filter_setStatus, List.filter_append, hnil]
    have hm : requestMatches (hash_url_str url) .image (newImageRequest email url w) = true := by
      simp [requestMatches, newImageRequest]
    simp only [List.nil_append, List.filter_cons, hm, if_true, List.filter_nil,
               List.map_cons, List.map_nil, List.head?_cons, Option.some.injEq]
    simp [newImageRequest]
  · unfold latestResult
    have hres : (freshImageWorld env email url raw w).results =
        w.results ++ [newResult raw w] := rfl
    rw [hres, List.filter_append]
    have hnil2 : w.results.filter (fun res => res.request_id == w.nextId) = [] := by
      rw [List.filter_eq_nil_iff]
      intro res hresm
      simp [Nat.ne_of_lt (hwf res hresm)]
    rw [hnil2]
    simp [newResult]

/-- C9 (amended): two image-by-URL submissions whose URLs agree after
trimming and lowercasing get the same fingerprint; on a store with no prior
matching request, the second submission returns the first's stored verdict,
creates no new rows and performs no further classification call — but it
still fetches the image again (the fetch precedes the dedup lookup). -/
theorem image_url_dedup_refetches (env : ℕ → LLMReply)
    (fetch : String → Except String Unit) (email1 email2 u1 u2 raw : String) (w : World)
    (hnorm : (stripWs u2.data).map lowerChar = (stripWs u1.data).map lowerChar)
    (hf1 : fetch u1 = .ok ()) (hf2 : fetch u2 = .ok ())
    (hclean : findExisting w (hash_url_str u1) .image = none)
    (hwf : ∀ res ∈ w.results, res.request_id < w.nextId)
    (henv : env w.llmCalls = .ok raw) :
    hash_url_str u2 = hash_url_str u1 ∧
    (moderate_image env fetch email2 u2 (moderate_image env fetch email1 u1 w).1).1.fetchCalls =
      (moderate_image env fetch email1 u1 w).1.fetchCalls + 1 ∧
    (moderate_image env fetch email2 u2 (moderate_image env fetch email1 u1 w).1).1.requests =
      (moderate_image env fetch email1 u1 w).1.requests ∧
    (moderate_image env fetch email2 u2 (moderate_image env fetch email1 u1 w).1).1.results =
      (moderate_image env fetch email1 u1 w).1.results ∧
    (moderate_image env fetch email2 u2 (moderate_image env fetch email1 u1 w).1).1.llmCalls =
      (moderate_image env fetch email1 u1 w).1.llmCalls ∧
    (moderate_image env fetch email2 u2 (moderate_image env fetch email1 u1 w).1).1.jobs =
      (moderate_image env fetch email1 u1 w).1.jobs ∧
    ∃ resp1 resp2,
      (moderate_image env fetch email1 u1 w).2 = .ok resp1 ∧
      (moderate_image env fetch email2 u2 (moderate_image env fetch email1 u1 w).1).2 =
        .ok resp2 ∧
      resp2.request_id = resp1.request_id ∧
      resp2.classification = resp1.classification ∧
      resp2.confidence = resp1.confidence ∧
      resp2.reasoning = resp1.reasoning := by
  have hhash : hash_url_str u2 = hash_url_str u1 := by
    unfold hash_url_str hash_url
    rw [hnorm]
  have hmiss : (findExisting w (hash_url_str u1) .image).bind
      (fun r => (latestResult w r.id).map (fun res => (r, res))) = none := by
    rw [hclean]; rfl
  have h1 := moderate_image_freshOk env fetch email1 u1 raw w hf1 hmiss henv
  obtain ⟨hfind2, hres2⟩ := freshImageWorld_lookup env email1 u1 raw w hclean hwf
  have hfind2' : findExisting (freshImageWorld env email1 u1 raw w) (hash_url_str u2)
      .image = some { id := w.nextId, email := email1, content_type := .image,
                      content_hash := hash_url_str u1, status := .completed } := by
    rw [hhash]; exact hfind2
  have h2 := moderate_image_cacheHit env fetch email2 u2
    (freshImageWorld env email1 u1 raw w) _ _ hf2 hfind2' hres2
  refine ⟨hhash,
          by simp only [h1, h2]; try rfl,
          by simp only [h1, h2]; try rfl,
          by simp only [h1, h2]; try rfl,
          by simp only [h1, h2]; try rfl,
          by simp only [h1, h2]; try rfl,
          { success := true, request_id := w.nextId,
            classification := (parse_llm_response raw).classification,
            confidence := (parse_llm_response raw).confidence,
            reasoning := (parse_llm_response raw).reasoning,
            message := "Content analyzed successfully" },
          { success := true, request_id := w.nextId,
            classification := (newResult raw w).classification,
            confidence := (newResult raw w).confidence,
            reasoning := (newResult raw w).reasoning,
            message := "Content analyzed successfully (cached result)" },
          by simp only [h1],
          by simp only [h1, h2]; try rfl,
          rfl, rfl, rfl, rfl⟩

/-- Witness for `image_url_dedup_refetches` at two case-variant URLs. -/
theorem image_url_dedup_witness :
    (stripWs "http://example.com/img.png".data).map lowerChar =
      (stripWs "HTTP://Example.com/Img.PNG".data).map lowerChar ∧
    hash_url_str "http://example.com/img.png" = hash_url_str "HTTP://Example.com/Img.PNG" :=
  ⟨by decide,
   (image_url_dedup_refetches envHarassment (fun _ => .ok ()) "a@b.c" "d@e.f"
     "HTTP://Example.com/Img.PNG" "http://example.com/img.png" rawHarassment World.empty
     (by decide) rfl rfl rfl (by decide) rfl).1⟩

/-- C9 counterexample: submitting the same image URL twice (differing only in
case) re-fetches the image on the second submission — the fetch counter
reaches 2 even though the verdict comes from the cache and no second
classification call happens. -/
theorem image_refetch_cex :
    (moderate_image envHarassment (fun _ => .ok ()) "d@e.f" "http://example.com/img.png"
       (moderate_image envHarassment (fun _ => .ok ()) "a@b.c" "HTTP://Example.com/Img.PNG"
          World.empty).1).1.fetchCalls = 2 ∧
    (moderate_image envHarassment (fun _ => .ok ()) "d@e.f" "http://example.com/img.png"
       (moderate_image envHarassment (fun _ => .ok ()) "a@b.c" "HTTP://Example.com/Img.PNG"
          World.empty).1).1.llmCalls = 1 ∧
    (moderate_image envHarassment (fun _ => .ok ()) "d@e.f" "http://example.com/img.png"
       (moderate_image envHarassment (fun _ => .ok ()) "a@b.c" "HTTP://Example.com/Img.PNG"
          World.empty).1).1.requests.length = 1 := by
  exact ⟨by decide, by decide, by decide⟩

/-! Character-level facts feeding the fingerprint claim. -/

/-- Valid scalar values round-trip through `Char.ofNat` and `Char.toNat`. -/
theorem toNat_ofNat_valid (n : ℕ) (h : n.isValidChar) : (Char.ofNat n).toNat = n := by
  unfold Char.ofNat
  rw [dif_pos h]
  rfl

/-- An ASCII letter is not Python whitespace. -/
theorem isPySpace_false_of_alpha (c : Char)
    (h : 65 ≤ c.toNat ∧ c.toNat ≤ 90 ∨ 97 ≤ c.toNat ∧ c.toNat ≤ 122) :
    isPySpace c = false := by
  have h32 : c ≠ ' ' := fun hc => by subst hc; revert h; decide
  have h9 : c ≠ Char.ofNat 9 := fun hc => by subst hc; revert h; decide
  have h10 : c ≠ Char.ofNat 10 := fun hc => by subst hc; revert h; decide
  have h13 : c ≠ Char.ofNat 13 := fun hc => by subst hc; revert h; decide
  have h11 : c ≠ Char.ofNat 11 := fun hc => by subst hc; revert h; decide
  have h12 : c ≠ Char.ofNat 12 := fun hc => by subst hc; revert h; decide
  simp [isPySpace, h32, h9, h10, h13, h11, h12]

/-- Lowercasing does not change whether a character is whitespace. -/
theorem isPySpace_lowerChar (c : Char) : isPySpace (lowerChar c) = isPySpace c := by
  unfold lowerChar
  split
  · rename_i h
    have ht : (Char.ofNat (c.toNat + 32)).toNat = c.toNat + 32 :=
      toNat_ofNat_valid _ (Or.inl (by omega))
    rw [isPySpace_false_of_alpha _ (Or.inr (by rw [ht]; omega)),
        isPySpace_false_of_alpha c (Or.inl h)]
  · rfl

/-- Lowercasing is idempotent. -/
theorem lowerChar_lowerChar (c : Char) : lowerChar (lowerChar c) = lowerChar c := by
  have hfix : ∀ d : Char, ¬(65 ≤ d.toNat ∧ d.toNat ≤ 90) → lowerChar d = d := by
    intro d hd
    unfold lowerChar
    rw [if_neg hd]
  by_cases h : 65 ≤ c.toNat ∧ c.toNat ≤ 90
  · have hc : lowerChar c = Char.ofNat (c.toNat + 32) := by
      unfold lowerChar
      rw [if_pos h]
    have ht : (Char.ofNat (c.toNat + 32)).toNat = c.toNat + 32 :=
      toNat_ofNat_valid _ (Or.inl (by omega))
    rw [hc]
    exact hfix _ (by rw [ht]; omega)
  · rw [hfix c h, hfix c h]

/-! `splitWs` lemmas: whitespace runs separate and never appear in words. -/

/-- A whitespace-only string splits to nothing. -/
theorem splitWs_wsOnly (w : List Char) (hw : ∀ c ∈ w, isPySpace c = true) :
    splitWs w = [] := by
  induction w with
  | nil => rfl
  | cons c cs ih =>
    unfold splitWs at ih ⊢
    simp only [splitWsAux, hw c (List.mem_cons_self c cs), if_true, List.isEmpty_nil]
    exact ih (fun c hc => hw c (List.mem_cons_of_mem _ hc))

/-- A whitespace character flushes the word in progress; what follows is
split independently. -/
theorem splitWsAux_append_wsChar (c : Char) (hc : isPySpace c = true) (ys : List Char) :
    ∀ xs acc, splitWsAux (xs ++ c :: ys) acc = splitWsAux xs acc ++ splitWs ys := by
  intro xs
  induction xs with
  | nil =>
    intro acc
    show splitWsAux (c :: ys) acc = splitWsAux [] acc ++ splitWs ys
    cases acc with
    | nil => simp [splitWsAux, hc, splitWs]
    | cons a as => simp [splitWsAux, hc, splitWs]
  | cons x xs ih =>
    intro acc
    show splitWsAux (x :: (xs ++ c :: ys)) acc = splitWsAux (x :: xs) acc ++ splitWs ys
    by_cases hx : isPySpace x
    · cases acc with
      | nil => simp only [splitWsAux, hx, if_true, List.isEmpty_nil, ih]
      | cons a as =>
        simp only [splitWsAux, hx, if_true, List.isEmpty_cons, if_false, ih]
        simp [List.cons_append]
    · simp only [splitWsAux, hx, if_false, Bool.false_eq_true, ih]

/-- Appending trailing whitespace does not change the split. -/
theorem splitWsAux_append_wsOnly (w : List Char) (hw : ∀ c ∈ w, isPySpace c = true) :
    ∀ xs acc, splitWsAux (xs ++ w) acc = splitWsAux xs acc := by
  cases w with
  | nil => intro xs acc; rw [List.append_nil]
  | cons c w' =>
    intro xs acc
    rw [splitWsAux_append_wsChar c (hw c (List.mem_cons_self _ _)) w' xs acc,
        splitWs_wsOnly w' (fun d hd => hw d (List.mem_cons_of_mem _ hd)),
        List.append_nil]

/-- Leading whitespace does not change the split. -/
theorem splitWs_wsOnly_left (w ys : List Char) (hw : ∀ c ∈ w, isPySpace c = true) :
    splitWs (w ++ ys) = splitWs ys := by
  induction w with
  | nil => rfl
  | cons c cs ih =>
    unfold splitWs at ih ⊢
    simp only [List.cons_append, splitWsAux, hw c (List.mem_cons_self c cs), if_true,
               List.isEmpty_nil]
    exact ih (fun d hd => hw d (List.mem_cons_of_mem _ hd))

/-- A nonempty whitespace run in the middle separates the two sides. -/
theorem splitWs_ws_mid (xs w ys : List Char) (hw : ∀ c ∈ w, isPySpace c = true)
    (hne : w ≠ []) : splitWs (xs ++ w ++ ys) = splitWs xs ++ splitWs ys := by
  cases w with
  | nil => exact absurd rfl hne
  | cons c w' =>
    have hshape : xs ++ (c :: w') ++ ys = xs ++ c :: (w' ++ ys) := by
      rw [List.append_assoc]
      rfl
    rw [hshape]
    unfold splitWs
    rw [splitWsAux_append_wsChar c (hw c (List.mem_cons_self _ _)) (w' ++ ys) xs []]
    rw [show splitWs (w' ++ ys) = splitWs ys from
      splitWs_wsOnly_left w' ys (fun d hd => hw d (List.mem_cons_of_mem _ hd))]
    rfl

/-- Dropping leading whitespace does not change the split. -/
theorem splitWs_dropWhile_ws (cs : List Char) :
    splitWs (cs.dropWhile isPySpace) = splitWs cs := by
  conv_rhs => rw [← List.takeWhile_append_dropWhile (p := isPySpace) (l := cs)]
  exact (splitWs_wsOnly_left _ _ (fun c hc => List.mem_takeWhile_imp hc)).symm

/-- Stripping does not change the split. -/
theorem splitWs_stripWs (cs : List Char) : splitWs (stripWs cs) = splitWs cs := by
  unfold stripWs
  set u := cs.dropWhile isPySpace with hu
  have hdecomp : u = (u.reverse.dropWhile isPySpace).reverse ++
      (u.reverse.takeWhile isPySpace).reverse := by
    calc u = u.reverse.reverse := (List.reverse_reverse u).symm
    _ = (u.reverse.takeWhile isPySpace ++ u.reverse.dropWhile isPySpace).reverse := by
        rw [List.takeWhile_append_dropWhile]
    _ = (u.reverse.dropWhile isPySpace).reverse ++
        (u.reverse.takeWhile isPySpace).reverse := List.reverse_append _ _
  have hstep : splitWs ((u.reverse.dropWhile isPySpace).reverse) = splitWs u := by
    conv_rhs => rw [hdecomp]
    unfold splitWs
    exact (splitWsAux_append_wsOnly _
      (fun c hc => List.mem_takeWhile_imp (List.mem_reverse.mp hc)) _ _).symm
  rw [hstep, hu]
  exact splitWs_dropWhile_ws cs

/-- Every produced word is nonempty and whitespace-free. -/
theorem splitWsAux_words (cs : List Char) :
    ∀ acc, (∀ c ∈ acc, isPySpace c = false) →
      ∀ word ∈ splitWsAux cs acc, word ≠ [] ∧ ∀ c ∈ word, isPySpace c = false := by
  induction cs with
  | nil =>
    intro acc hacc word hword
    cases acc with
    | nil => exact absurd hword (by simp [splitWsAux])
    | cons a as =>
      have hw : word = (a :: as).reverse := by simpa [splitWsAux] using hword
      subst hw
      exact ⟨by simp, fun c hc => hacc c (List.mem_reverse.mp hc)⟩
  | cons x cs ih =>
    intro acc hacc word hword
    by_cases hx : isPySpace x
    · cases acc with
      | nil =>
        have hres : word ∈ splitWsAux cs [] := by simpa [splitWsAux, hx] using hword
        exact ih [] (by simp) word hres
      | cons a as =>
        have hres : word = (a :: as).reverse ∨ word ∈ splitWsAux cs [] := by
          simpa [splitWsAux, hx] using hword
        rcases hres with h | h
        · subst h
          exact ⟨by simp, fun c hc => hacc c (List.mem_reverse.mp hc)⟩
        · exact ih [] (by simp) word h
    · have hres : word ∈ splitWsAux cs (x :: acc) := by simpa [splitWsAux, hx] using hword
      refine ih (x :: acc) ?_ word hres
      intro c hc
      rcases List.mem_cons.mp hc with h | h
      · subst h
        simpa using hx
      · exact hacc c h

/-- Splitting a single whitespace-free word yields just that word. -/
theorem splitWsAux_word_all (xs : List Char) (hxs : ∀ c ∈ xs, isPySpace c = false) :
    ∀ acc, splitWsAux xs acc =
      if (acc.reverse ++ xs).isEmpty then [] else [acc.reverse ++ xs] := by
  induction xs with
  | nil =>
    intro acc
    cases acc <;> simp [splitWsAux]
  | cons x xs ih =>
    intro acc
    have hx := hxs x (List.mem_cons_self _ _)
    show splitWsAux (x :: xs) acc = _
    unfold splitWsAux
    rw [if_neg (by rw [hx]; exact Bool.false_ne_true)]
    rw [ih (fun c hc => hxs c (List.mem_cons_of_mem _ hc)) (x :: acc)]
    simp [List.append_assoc]

/-- Splitting one nonempty whitespace-free word yields the word alone. -/
theorem splitWs_word (xs : List Char) (hne : xs ≠ [])
    (hxs : ∀ c ∈ xs, isPySpace c = false) : splitWs xs = [xs] := by
  unfold splitWs
  rw [splitWsAux_word_all xs hxs []]
  simp [hne]

/-- Unfolding of `List.intercalate` on two or more pieces. -/
theorem intercalate_cons_cons_chars (s x y : List Char) (zs : List (List Char)) :
    List.intercalate s (x :: y :: zs) = x ++ s ++ List.intercalate s (y :: zs) := by
  simp [List.intercalate, List.append_assoc]

/-- Splitting is a left inverse of single-space joining on nonempty
whitespace-free words. -/
theorem splitWs_intercalate (ws : List (List Char))
    (h : ∀ w ∈ ws, w ≠ [] ∧ ∀ c ∈ w, isPySpace c = false) :
    splitWs (List.intercalate [' '] ws) = ws := by
  induction ws with
  | nil => rfl
  | cons x xs ih =>
    cases xs with
    | nil =>
      have hx := h x (List.mem_cons_self _ _)
      rw [show List.intercalate [' '] [x] = x from by simp [List.intercalate]]
      exact splitWs_word x hx.1 hx.2
    | cons y ys =>
      rw [intercalate_cons_cons_chars]
      have hx := h x (List.mem_cons_self _ _)
      rw [splitWs_ws_mid x [' '] (List.intercalate [' '] (y :: ys))
            (by intro c hc; simp at hc; subst hc; rfl) (by simp)]
      rw [splitWs_word x hx.1 hx.2, ih (fun w hw => h w (List.mem_cons_of_mem _ hw))]
      rfl

/-- The split of a lowercased string is the lowercase image of the split. -/
theorem splitWsAux_map (cs : List Char) :
    ∀ acc, splitWsAux (cs.map lowerChar) (acc.map lowerChar) =
      (splitWsAux cs acc).map (List.map lowerChar) := by
  induction cs with
  | nil =>
    intro acc
    cases acc <;> simp [splitWsAux]
  | cons x cs ih =>
    intro acc
    show splitWsAux (lowerChar x :: cs.map lowerChar) (acc.map lowerChar) = _
    by_cases hx : isPySpace x
    · have hlx : isPySpace (lowerChar x) = true := by rw [isPySpace_lowerChar]; exact hx
      cases acc with
      | nil =>
        simp only [splitWsAux, hlx, hx, if_true, List.map_nil, List.isEmpty_nil]
        exact ih []
      | cons a as =>
        simp only [splitWsAux, hlx, hx, if_true, List.map_cons, List.isEmpty_cons,
                   Bool.false_eq_true, if_false]
        rw [show lowerChar a :: List.map lowerChar as = List.map lowerChar (a :: as)
              from rfl,
            ← List.map_reverse, ← ih []]
        rfl
    · have hxf : isPySpace x = false := by rwa [Bool.not_eq_true] at hx
      have hlx : isPySpace (lowerChar x) = false := by rw [isPySpace_lowerChar]; exact hxf
      simp only [splitWsAux, hlx, hxf, Bool.false_eq_true, if_false]
      exact ih (x :: acc)

/-- Splitting commutes with lowercasing. -/
theorem splitWs_map_lower (cs : List Char) :
    splitWs (cs.map lowerChar) = (splitWs cs).map (List.map lowerChar) := by
  have h := splitWsAux_map cs []
  simpa [splitWs] using h

/-- Lowercasing distributes over single-space joining. -/
theorem map_lower_intercalate (xss : List (List Char)) :
    (List.intercalate [' '] xss).map lowerChar =
      List.intercalate [' '] (xss.map (List.map lowerChar)) := by
  induction xss with
  | nil => rfl
  | cons x xs ih =>
    cases xs with
    | nil => simp [List.intercalate]
    | cons y ys =>
      rw [intercalate_cons_cons_chars, List.map_cons, List.map_cons,
          intercalate_cons_cons_chars, List.map_append, List.map_append, ih]
      rw [show ([' '] : List Char).map lowerChar = [' '] from by decide]
      rw [List.map_cons]

/-- Stripping commutes with lowercasing. -/
theorem stripWs_map_lower (cs : List Char) :
    (stripWs cs).map lowerChar = stripWs (cs.map lowerChar) := by
  have hf : (isPySpace ∘ lowerChar) = isPySpace := funext isPySpace_lowerChar
  unfold stripWs
  rw [List.dropWhile_map, hf, ← List.map_reverse, List.dropWhile_map, hf,
      ← List.map_reverse]

/-- The normalization is split-then-join of the lowercased text. -/
theorem normText_eq (cs : List Char) :
    normText cs = List.intercalate [' '] (splitWs (cs.map lowerChar)) := by
  unfold normText
  rw [stripWs_map_lower, splitWs_stripWs]

/-- Texts with the same lowercased word sequence fingerprint identically. -/
theorem hash_text_congr (t u : List Char)
    (h : splitWs (t.map lowerChar) = splitWs (u.map lowerChar)) :
    hash_text t = hash_text u := by
  unfold hash_text
  rw [normText_eq, normText_eq, h]

/-- The lowercased word sequence is fixed under further lowercasing. -/
theorem words_lower_fixed (t : List Char) :
    (splitWs (t.map lowerChar)).map (List.map lowerChar) = splitWs (t.map lowerChar) := by
  rw [splitWs_map_lower, List.map_map]
  refine List.map_congr_left ?_
  intro w _
  show (List.map lowerChar ∘ List.map lowerChar) w = List.map lowerChar w
  rw [Function.comp_apply, List.map_map]
  refine List.map_congr_left ?_
  intro c _
  exact lowerChar_lowerChar c

/-- The lowercased word sequence of a normalized text is that of the text. -/
theorem splitWs_lower_normText (t : List Char) :
    splitWs ((normText t).map lowerChar) = splitWs (t.map lowerChar) := by
  rw [normText_eq, map_lower_intercalate, words_lower_fixed]
  exact splitWs_intercalate _ (splitWsAux_words (t.map lowerChar) [] (by simp))

/-- C5: the fingerprint equals the lowercase-hex SHA-256 of the UTF-8 bytes
of the trimmed, lowercased, whitespace-collapsed text; it is invariant under
leading/trailing whitespace padding, character case, and the width of
internal whitespace runs; fingerprinting a normalized text equals
fingerprinting the original; and any two texts with the same lowercased word
sequence fingerprint identically. -/
theorem fingerprint_stability (t : List Char) :
    hash_text t = toHex (sha256 (utf8Encode (normText t))) ∧
    hash_text (normText t) = hash_text t ∧
    (∀ p q, (∀ c ∈ p, isPySpace c = true) → (∀ c ∈ q, isPySpace c = true) →
      hash_text (p ++ t ++ q) = hash_text t) ∧
    hash_text (t.map lowerChar) = hash_text t ∧
    (∀ a b u v, u ≠ [] → v ≠ [] →
      (∀ c ∈ u, isPySpace c = true) → (∀ c ∈ v, isPySpace c = true) →
      hash_text (a ++ u ++ b) = hash_text (a ++ v ++ b)) ∧
    (∀ t', splitWs (t'.map lowerChar) = splitWs (t.map lowerChar) →
      hash_text t' = hash_text t) := by
  refine ⟨rfl, ?_, ?_, ?_, ?_, fun t' h => hash_text_congr t' t h⟩
  · exact hash_text_congr (normText t) t (splitWs_lower_normText t)
  · intro p q hp hq
    refine hash_text_congr (p ++ t ++ q) t ?_
    rw [List.map_append, List.map_append]
    have hp' : ∀ c ∈ p.map lowerChar, isPySpace c = true := by
      intro c hc
      obtain ⟨d, hd, rfl⟩ := List.mem_map.mp hc
      rw [isPySpace_lowerChar]
      exact hp d hd
    have hq' : ∀ c ∈ q.map lowerChar, isPySpace c = true := by
      intro c hc
      obtain ⟨d, hd, rfl⟩ := List.mem_map.mp hc
      rw [isPySpace_lowerChar]
      exact hq d hd
    rw [List.append_assoc]
    rw [splitWs_wsOnly_left _ _ hp']
    unfold splitWs
    exact splitWsAux_append_wsOnly _ hq' _ _
  · exact hash_text_congr (t.map lowerChar) t (by
      rw [splitWs_map_lower (t.map lowerChar), splitWs_map_lower t, List.map_map]
      refine List.map_congr_left ?_
      intro w _
      show (List.map lowerChar ∘ List.map lowerChar) w = List.map lowerChar w
      rw [Function.comp_apply, List.map_map]
      exact List.map_congr_left (fun c _ => lowerChar_lowerChar c))
  · intro a b u v hu hv hwu hwv
    have key : ∀ z : List Char, z ≠ [] → (∀ c ∈ z, isPySpace c = true) →
        splitWs ((a ++ z ++ b).map lowerChar) =
          splitWs (a.map lowerChar) ++ splitWs (b.map lowerChar) := by
      intro z hz hwz
      rw [List.map_append, List.map_append]
      refine splitWs_ws_mid _ _ _ ?_ ?_
      · intro c hc
        obtain ⟨d, hd, rfl⟩ := List.mem_map.mp hc
        rw [isPySpace_lowerChar]
        exact hwz d hd
      · simpa using hz
    exact hash_text_congr _ _ ((key u hu hwu).trans (key v hv hwv).symm)

/-- Witness for `fingerprint_stability`: case and whitespace variants of
"hello world" fingerprint identically. -/
theorem fingerprint_stability_witness :
    (∀ c ∈ "  ".data, isPySpace c = true) ∧
    hash_text ("  ".data ++ "Hello World".data ++ "  ".data) =
      hash_text "Hello World".data := by
  refine ⟨by decide, ?_⟩
  exact (fingerprint_stability "Hello World".data).2.2.1 "  ".data "  ".data
    (by decide) (by decide)

end SCM
